import Mathlib

/-!
Verification of the frame-processing and detection-orchestration pipeline of
the vue-qr-scanner component (src/QrScanner.vue), shallowly embedded in Lean.

Numbers are modelled as rationals; Math.floor becomes Int.floor; the two
detection backends are opaque inputs whose per-frame outcome (a result list or
a thrown error) is supplied as data; the mutable session fields of the
component (usingBarcodeAPI, zeroFrameStreak, bdStartTs, frameCount,
smoothCorners, running) form an explicit state record threaded through the
per-frame functions readFrame and loop.
-/

namespace QrScanner

/-- A point in frame-pixel coordinates (type Pt in the source). -/
@[ext]
structure Pt where
  x : ℚ
  y : ℚ
deriving DecidableEq, Repr, Inhabited

/-- ROI shape option (type RoiShape in the source). -/
inductive RoiShape where
  | square
  | rect
deriving DecidableEq, Repr

/-- The ROI-related props read by roiRect. -/
structure RoiProps where
  roiShape : RoiShape
  roiAspect : ℚ
  roiSizeRatio : ℚ
  roiPadding : ℚ
deriving DecidableEq, Repr

/-- The rectangle returned by roiRect. -/
structure Rect where
  x : ℚ
  y : ℚ
  w : ℚ
  h : ℚ
deriving DecidableEq, Repr

/-- Lines 164-171 of QrScanner.vue: the unpadded ROI width and height computed
from the canvas dimensions and the shape, aspect and size-ratio props. -/
def roiDims (cw ch : ℚ) (p : RoiProps) : ℚ × ℚ :=
  let shortSide := min cw ch
  let base : ℚ := max 0 ((⌊shortSide * p.roiSizeRatio⌋ : ℤ) : ℚ)
  match p.roiShape with
  | RoiShape.square => (base, base)
  | RoiShape.rect =>
    let aspect := max (1 / 100) p.roiAspect
    if 1 ≤ aspect then (base, ((⌊base / aspect⌋ : ℤ) : ℚ))
    else (((⌊base * aspect⌋ : ℤ) : ℚ), base)

/-- Lines 163-177 of QrScanner.vue: the function roiRect, which centers the
ROI in the frame and then applies the padding prop. -/
def roiRect (cw ch : ℚ) (p : RoiProps) : Rect :=
  let wh := roiDims cw ch p
  let x : ℚ := ((⌊(cw - wh.1) / 2⌋ : ℤ) : ℚ)
  let y : ℚ := ((⌊(ch - wh.2) / 2⌋ : ℤ) : ℚ)
  let pad := max 0 p.roiPadding
  { x := x + pad, y := y + pad,
    w := max 0 (wh.1 - 2 * pad), h := max 0 (wh.2 - 2 * pad) }

/-- Line 149 of QrScanner.vue: the fixed smoothing factor. -/
def SMOOTH_ALPHA : ℚ := 35 / 100

/-- Lines 152-158 of QrScanner.vue: the function emaCorners, with the
smoothing factor abstracted as a parameter a (the component always passes
SMOOTH_ALPHA). -/
def emaCornersA (a : ℚ) (prev : Option (List Pt)) (next : List Pt) : List Pt :=
  match prev with
  | none => next.map (fun p => { x := p.x, y := p.y })
  | some pr =>
    if pr.length ≠ next.length then next.map (fun p => { x := p.x, y := p.y })
    else
      List.zipWith
        (fun p q => ({ x := q.x + a * (p.x - q.x), y := q.y + a * (p.y - q.y) } : Pt))
        next pr

/-- The function emaCorners as the component uses it, at the fixed factor. -/
def emaCorners : Option (List Pt) → List Pt → List Pt :=
  emaCornersA SMOOTH_ALPHA

/-- Lines 159-161 of QrScanner.vue: the function centroid. -/
def centroid (pts : List Pt) : Pt :=
  { x := (pts.map Pt.x).sum / (pts.length : ℚ),
    y := (pts.map Pt.y).sum / (pts.length : ℚ) }

example :
    roiRect 1 1 { roiShape := RoiShape.square, roiAspect := 8/5, roiSizeRatio := 1, roiPadding := 2 }
      = { x := 2, y := 2, w := 0, h := 0 } := by
  with_unfolding_all rfl

example : emaCorners (some [{ x := 0, y := 0 }]) [{ x := 0, y := 1 }] =
    [{ x := 0, y := 7/20 }] := by with_unfolding_all rfl

example : centroid [{ x := 0, y := 0 }, { x := 2, y := 4 }] = { x := 1, y := 2 } := by
  with_unfolding_all rfl

/-- A detection result (type DetectedCode in src/types.ts). -/
structure DetectedCode where
  rawValue : String
  format : Option String
  corners : Option (List Pt)
deriving DecidableEq, Repr

/-- The identity carried by the engine-change event. -/
inductive Engine where
  | barcodeDetector
  | wasm
deriving DecidableEq, Repr

/-- The events the component emits (line 134 of QrScanner.vue). -/
inductive Event where
  | detect (rs : List DetectedCode)
  | error (msg : String)
  | engineChange (e : Engine)
deriving DecidableEq, Repr

/-- The props consulted by the frame pipeline (lines 67-133 of QrScanner.vue),
restricted to the ones the embedded functions read. -/
structure Props where
  frameInterval : ℕ
  roi : RoiProps
  useRoi : Bool
  filterInsideRoi : Bool
  bdTimeoutMs : ℚ
  bdMaxZeroFrames : ℕ
  detectEnabled : Bool
  scanOnce : Bool
deriving DecidableEq, Repr

/-- The mutable session fields of the component (lines 138-147 of
QrScanner.vue) threaded explicitly. -/
structure ScannerSt where
  usingBarcodeAPI : Bool
  zeroFrameStreak : ℕ
  bdStartTs : ℚ
  frameCount : ℕ
  smoothCorners : Option (List Pt)
  running : Bool
deriving DecidableEq, Repr

/-- Everything one animation-frame tick reads from the outside world: the
clock, the outcome of a native-detector call (a result list, or a thrown
error), the outcome of a WASM readBarcodes call (coordinates still relative
to the crop origin), and the video pixel dimensions. -/
structure FrameInput where
  now : ℚ
  native : Except String (List DetectedCode)
  wasmRaw : Except String (List DetectedCode)
  videoW : ℚ
  videoH : ℚ
deriving Repr

/-- Lines 437-449 of QrScanner.vue: the helper maybeFallbackToWasm. Returns
whether it fell back, the updated state and the emitted events. -/
def maybeFallbackToWasm (p : Props) (now : ℚ) (s : ScannerSt) :
    Bool × ScannerSt × List Event :=
  if s.usingBarcodeAPI = false then (false, s, [])
  else
    let byTime := decide (0 < p.bdTimeoutMs ∧ p.bdTimeoutMs ≤ now - s.bdStartTs)
    let byStreak := decide (0 < p.bdMaxZeroFrames ∧ p.bdMaxZeroFrames ≤ s.zeroFrameStreak)
    if byTime || byStreak then
      (true, { s with usingBarcodeAPI := false }, [Event.engineChange Engine.wasm])
    else (false, s, [])

/-- Lines 460-464 of QrScanner.vue: the mapping applied to a native
BarcodeDetector result list (fresh objects, corners copied pointwise). -/
def nativeMap (rs : List DetectedCode) : List DetectedCode :=
  rs.map (fun r =>
    { rawValue := r.rawValue, format := r.format,
      corners := r.corners.map (fun cs => cs.map (fun q => ({ x := q.x, y := q.y } : Pt))) })

/-- Lines 491-495 of QrScanner.vue: the mapping applied to a WASM readBarcodes
result list, translating corner coordinates back by the crop offset and
defaulting the format. -/
def wasmMap (sx sy : ℚ) (bs : List DetectedCode) : List DetectedCode :=
  bs.map (fun b =>
    { rawValue := b.rawValue, format := some (b.format.getD "qr_code"),
      corners := b.corners.map (fun cs => cs.map (fun q => ({ x := q.x + sx, y := q.y + sy } : Pt))) })

/-- The outcome of one readFrame call: the returned (or thrown) result list,
the updated session state, the events emitted during the call, and whether a
detection engine was actually invoked (false on throttled ticks). -/
structure ReadOut where
  result : Except String (List DetectedCode)
  state : ScannerSt
  events : List Event
  invoked : Bool
deriving Repr

/-- Lines 476-495 of QrScanner.vue: the WASM tail of readFrame: crop to the
ROI when useRoi is set, call readBarcodes, and return the mapped results, or
propagate a thrown WASM error to the caller. The state and the events
accumulated earlier in the call are carried through. -/
def wasmPath (p : Props) (inp : FrameInput) (s : ScannerSt) (evs : List Event) : ReadOut :=
  let sx := if p.useRoi then (roiRect inp.videoW inp.videoH p.roi).x else 0
  let sy := if p.useRoi then (roiRect inp.videoW inp.videoH p.roi).y else 0
  match inp.wasmRaw with
  | Except.error e => { result := Except.error e, state := s, events := evs, invoked := true }
  | Except.ok ws =>
    { result := Except.ok (wasmMap sx sy ws), state := s, events := evs, invoked := true }

/-- Lines 431-496 of QrScanner.vue: the function readFrame. The throttle
updates frameCount and skips the tick unless it wrapped to 0; the
BarcodeDetector path updates the zero-result streak, may fall back to WASM
(on an empty result when maybeFallbackToWasm fires, or on a thrown native
error) and otherwise returns the mapped native results; control then falls
through to the WASM path in the same call. -/
def readFrame (p : Props) (inp : FrameInput) (s0 : ScannerSt) : ReadOut :=
  let fc := (s0.frameCount + 1) % p.frameInterval
  let s1 := { s0 with frameCount := fc }
  if fc ≠ 0 then { result := Except.ok [], state := s1, events := [], invoked := false }
  else
    let afterBD : Option (List DetectedCode) × ScannerSt × List Event :=
      if s1.usingBarcodeAPI then
        match inp.native with
        | Except.ok rs =>
          let s2 := { s1 with zeroFrameStreak := if rs.length ≠ 0 then 0 else s1.zeroFrameStreak + 1 }
          if rs.length = 0 then
            match maybeFallbackToWasm p inp.now s2 with
            | (true, s3, evs) => (none, s3, evs)
            | (false, s3, evs) => (some (nativeMap rs), s3, evs)
          else (some (nativeMap rs), s2, [])
        | Except.error _ =>
          (none, { s1 with usingBarcodeAPI := false }, [Event.engineChange Engine.wasm])
      else (none, s1, [])
    match afterBD with
    | (some rs, s, evs) => { result := Except.ok rs, state := s, events := evs, invoked := true }
    | (none, s, evs) => wasmPath p inp s evs

/-- Lines 503-508 of QrScanner.vue: the ROI-containment filter applied in the
loop to the result list of a frame. -/
def postFilter (p : Props) (cw ch : ℚ) (results : List DetectedCode) : List DetectedCode :=
  if p.filterInsideRoi then
    match results.head?.bind DetectedCode.corners with
    | some cs =>
      let r := roiRect cw ch p.roi
      let c := centroid cs
      if r.x ≤ c.x ∧ c.x ≤ r.x + r.w ∧ r.y ≤ c.y ∧ c.y ≤ r.y + r.h then results else []
    | none => results
  else results

/-- Lines 369-428 of QrScanner.vue: the state effect of drawOverlay. The
overlay is active when the top result has a non-empty corner list; only then
is the smoothing memory updated. Returns the new smoothing memory and the
polygon actually stroked for the detection outline (none when inactive). -/
def drawOverlayStep (results : List DetectedCode) (sc : Option (List Pt)) :
    Option (List Pt) × Option (List Pt) :=
  match results.head?.bind DetectedCode.corners with
  | some cs =>
    if cs.length ≠ 0 then
      let sm := emaCorners sc cs
      (some sm, some sm)
    else (sc, none)
  | none => (sc, none)

/-- The outcome of one loop iteration: the updated state, emitted events, the
post-filter result list of the frame, the argument lists of the drawOverlay
calls made, the stroked detection polygon, whether a detection engine was
invoked, and whether requestAnimationFrame was called again. -/
structure LoopOut where
  state : ScannerSt
  events : List Event
  results : List DetectedCode
  draws : List (List DetectedCode)
  drawn : Option (List Pt)
  invoked : Bool
  reschedule : Bool
deriving DecidableEq, Repr

/-- Lines 498-528 of QrScanner.vue: one iteration of the function loop. A
readFrame error is caught at the frame boundary, emitted as an error event,
and the loop reschedules without drawing. Otherwise the results are passed
through the ROI-containment filter; a non-empty filtered list is emitted when
detectEnabled is set, and under scanOnce the session is paused, the overlay
drawn once more, and no further tick is requested. -/
def loop (p : Props) (inp : FrameInput) (s0 : ScannerSt) : LoopOut :=
  let ro := readFrame p inp s0
  match ro.result with
  | Except.error e =>
    { state := ro.state, events := ro.events ++ [Event.error e], results := [],
      draws := [], drawn := none, invoked := ro.invoked, reschedule := true }
  | Except.ok rs0 =>
    let rs := postFilter p inp.videoW inp.videoH rs0
    let detectEvs := if rs ≠ [] ∧ p.detectEnabled = true then [Event.detect rs] else []
    if rs ≠ [] ∧ p.scanOnce = true then
      let s1 := { ro.state with running := false }
      let d := drawOverlayStep rs s1.smoothCorners
      { state := { s1 with smoothCorners := d.1 }, events := ro.events ++ detectEvs,
        results := rs, draws := [rs], drawn := d.2, invoked := ro.invoked, reschedule := false }
    else
      let d := drawOverlayStep rs ro.state.smoothCorners
      { state := { ro.state with smoothCorners := d.1 }, events := ro.events ++ detectEvs,
        results := rs, draws := [rs], drawn := d.2, invoked := ro.invoked, reschedule := true }

/-- The scheduled frame loop driven by requestAnimationFrame: each tick runs
one loop iteration, and the next tick happens only if the iteration
rescheduled. The list of frame inputs supplies the world at each tick. -/
def runLoop (p : Props) : List FrameInput → ScannerSt → List LoopOut
  | [], _ => []
  | inp :: rest, s =>
    let o := loop p inp s
    o :: (if o.reschedule then runLoop p rest o.state else [])

/-- The per-tick post-filter result lists, with the state threaded through
every tick (used to phrase hypotheses about a frame sequence independently of
where the trace stops). -/
def resultsSeq (p : Props) : List FrameInput → ScannerSt → List (List DetectedCode)
  | [], _ => []
  | inp :: rest, s =>
    let o := loop p inp s
    o.results :: resultsSeq p rest o.state

/-! ## Helper lemmas about the embedded pipeline -/

lemma ptCopy_map (l : List Pt) : l.map (fun p => ({ x := p.x, y := p.y } : Pt)) = l := by
  have h : (fun p : Pt => ({ x := p.x, y := p.y } : Pt)) = id := funext fun p => rfl
  rw [h, List.map_id]

lemma dcCopy (r : DetectedCode) :
    ({ rawValue := r.rawValue, format := r.format,
       corners := r.corners.map (fun cs => cs.map (fun q => ({ x := q.x, y := q.y } : Pt))) }
      : DetectedCode) = r := by
  cases r with
  | mk rv f c =>
    cases c with
    | none => rfl
    | some cs => simp [ptCopy_map]

lemma nativeMap_id (rs : List DetectedCode) : nativeMap rs = rs := by
  induction rs with
  | nil => rfl
  | cons r t ih =>
    simp only [nativeMap, List.map_cons, List.cons.injEq]
    exact ⟨dcCopy r, by simpa [nativeMap] using ih⟩

lemma maybeFallback_fires (p : Props) (now : ℚ) (s : ScannerSt)
    (hbd : s.usingBarcodeAPI = true)
    (h : (0 < p.bdTimeoutMs ∧ p.bdTimeoutMs ≤ now - s.bdStartTs) ∨
         (0 < p.bdMaxZeroFrames ∧ p.bdMaxZeroFrames ≤ s.zeroFrameStreak)) :
    maybeFallbackToWasm p now s =
      (true, { s with usingBarcodeAPI := false }, [Event.engineChange Engine.wasm]) := by
  simp only [maybeFallbackToWasm, hbd]
  simp only [Bool.true_eq_false, if_false, Bool.or_eq_true, decide_eq_true_eq]
  rw [if_pos h]

lemma maybeFallback_quiet (p : Props) (now : ℚ) (s : ScannerSt)
    (hbd : s.usingBarcodeAPI = true)
    (h1 : ¬ (0 < p.bdTimeoutMs ∧ p.bdTimeoutMs ≤ now - s.bdStartTs))
    (h2 : ¬ (0 < p.bdMaxZeroFrames ∧ p.bdMaxZeroFrames ≤ s.zeroFrameStreak)) :
    maybeFallbackToWasm p now s = (false, s, []) := by
  simp only [maybeFallbackToWasm, hbd]
  simp only [Bool.true_eq_false, if_false, Bool.or_eq_true, decide_eq_true_eq]
  rw [if_neg (by tauto)]

lemma readFrame_skip (p : Props) (inp : FrameInput) (s0 : ScannerSt)
    (h : (s0.frameCount + 1) % p.frameInterval ≠ 0) :
    readFrame p inp s0 =
      { result := Except.ok [],
        state := { s0 with frameCount := (s0.frameCount + 1) % p.frameInterval },
        events := [], invoked := false } := by
  simp only [readFrame, h]
  rw [if_pos h]

lemma readFrame_native_some (p : Props) (inp : FrameInput) (s0 : ScannerSt)
    (rs : List DetectedCode)
    (hproc : (s0.frameCount + 1) % p.frameInterval = 0)
    (hbd : s0.usingBarcodeAPI = true)
    (hN : inp.native = Except.ok rs) (hne : rs ≠ []) :
    readFrame p inp s0 =
      { result := Except.ok (nativeMap rs),
        state := { s0 with frameCount := 0, zeroFrameStreak := 0 },
        events := [], invoked := true } := by
  have hlen : rs.length ≠ 0 := fun h => hne (List.length_eq_zero.mp h)
  simp only [readFrame, hproc, hbd, hN, hlen]
  simp [hne]

lemma readFrame_native_empty_quiet (p : Props) (inp : FrameInput) (s0 : ScannerSt)
    (hproc : (s0.frameCount + 1) % p.frameInterval = 0)
    (hbd : s0.usingBarcodeAPI = true)
    (hN : inp.native = Except.ok [])
    (h1 : ¬ (0 < p.bdTimeoutMs ∧ p.bdTimeoutMs ≤ inp.now - s0.bdStartTs))
    (h2 : ¬ (0 < p.bdMaxZeroFrames ∧ p.bdMaxZeroFrames ≤ s0.zeroFrameStreak + 1)) :
    readFrame p inp s0 =
      { result := Except.ok [],
        state := { s0 with frameCount := 0, zeroFrameStreak := s0.zeroFrameStreak + 1 },
        events := [], invoked := true } := by
  simp only [readFrame, hproc, hbd, hN]
  rw [maybeFallback_quiet p inp.now _ (by simp [hbd]) (by simpa using h1) (by simpa using h2)]
  simp [nativeMap]

lemma readFrame_native_empty_fire (p : Props) (inp : FrameInput) (s0 : ScannerSt)
    (hproc : (s0.frameCount + 1) % p.frameInterval = 0)
    (hbd : s0.usingBarcodeAPI = true)
    (hN : inp.native = Except.ok [])
    (h : (0 < p.bdTimeoutMs ∧ p.bdTimeoutMs ≤ inp.now - s0.bdStartTs) ∨
         (0 < p.bdMaxZeroFrames ∧ p.bdMaxZeroFrames ≤ s0.zeroFrameStreak + 1)) :
    readFrame p inp s0 =
      wasmPath p inp
        { s0 with frameCount := 0, zeroFrameStreak := s0.zeroFrameStreak + 1,
                  usingBarcodeAPI := false }
        [Event.engineChange Engine.wasm] := by
  simp only [readFrame, hproc, hbd, hN]
  rw [maybeFallback_fires p inp.now _ (by simp [hbd]) (by simpa using h)]
  simp

lemma readFrame_native_error (p : Props) (inp : FrameInput) (s0 : ScannerSt) (e : String)
    (hproc : (s0.frameCount + 1) % p.frameInterval = 0)
    (hbd : s0.usingBarcodeAPI = true)
    (hN : inp.native = Except.error e) :
    readFrame p inp s0 =
      wasmPath p inp { s0 with frameCount := 0, usingBarcodeAPI := false }
        [Event.engineChange Engine.wasm] := by
  simp only [readFrame, hproc, hbd, hN]
  simp

lemma readFrame_no_bd (p : Props) (inp : FrameInput) (s0 : ScannerSt)
    (hproc : (s0.frameCount + 1) % p.frameInterval = 0)
    (hbd : s0.usingBarcodeAPI = false) :
    readFrame p inp s0 = wasmPath p inp { s0 with frameCount := 0 } [] := by
  simp only [readFrame, hproc, hbd]
  simp

lemma wasmPath_ok (p : Props) (inp : FrameInput) (s : ScannerSt) (evs : List Event)
    (ws : List DetectedCode) (hW : inp.wasmRaw = Except.ok ws) :
    wasmPath p inp s evs =
      { result := Except.ok
          (wasmMap (if p.useRoi then (roiRect inp.videoW inp.videoH p.roi).x else 0)
                   (if p.useRoi then (roiRect inp.videoW inp.videoH p.roi).y else 0) ws),
        state := s, events := evs, invoked := true } := by
  simp only [wasmPath, hW]

lemma wasmPath_error (p : Props) (inp : FrameInput) (s : ScannerSt) (evs : List Event)
    (e : String) (hW : inp.wasmRaw = Except.error e) :
    wasmPath p inp s evs =
      { result := Except.error e, state := s, events := evs, invoked := true } := by
  simp only [wasmPath, hW]

lemma loop_eq_error (p : Props) (inp : FrameInput) (s : ScannerSt) (e : String)
    (h : (readFrame p inp s).result = Except.error e) :
    loop p inp s =
      { state := (readFrame p inp s).state,
        events := (readFrame p inp s).events ++ [Event.error e],
        results := [],
        draws := [],
        drawn := none,
        invoked := (readFrame p inp s).invoked,
        reschedule := true } := by
  simp only [loop, h]

lemma loop_eq_stop (p : Props) (inp : FrameInput) (s : ScannerSt) (rs0 : List DetectedCode)
    (h : (readFrame p inp s).result = Except.ok rs0)
    (hne : postFilter p inp.videoW inp.videoH rs0 ≠ []) (hsc : p.scanOnce = true) :
    loop p inp s =
      { state :=
          { (readFrame p inp s).state with
              running := false,
              smoothCorners :=
                (drawOverlayStep (postFilter p inp.videoW inp.videoH rs0)
                  (readFrame p inp s).state.smoothCorners).1 },
        events := (readFrame p inp s).events ++
          (if postFilter p inp.videoW inp.videoH rs0 ≠ [] ∧ p.detectEnabled = true
            then [Event.detect (postFilter p inp.videoW inp.videoH rs0)] else []),
        results := postFilter p inp.videoW inp.videoH rs0,
        draws := [postFilter p inp.videoW inp.videoH rs0],
        drawn := (drawOverlayStep (postFilter p inp.videoW inp.videoH rs0)
          (readFrame p inp s).state.smoothCorners).2,
        invoked := (readFrame p inp s).invoked,
        reschedule := false } := by
  simp only [loop, h]
  rw [if_pos (And.intro hne hsc)]

lemma loop_eq_go (p : Props) (inp : FrameInput) (s : ScannerSt) (rs0 : List DetectedCode)
    (h : (readFrame p inp s).result = Except.ok rs0)
    (hc : ¬ (postFilter p inp.videoW inp.videoH rs0 ≠ [] ∧ p.scanOnce = true)) :
    loop p inp s =
      { state :=
          { (readFrame p inp s).state with
              smoothCorners :=
                (drawOverlayStep (postFilter p inp.videoW inp.videoH rs0)
                  (readFrame p inp s).state.smoothCorners).1 },
        events := (readFrame p inp s).events ++
          (if postFilter p inp.videoW inp.videoH rs0 ≠ [] ∧ p.detectEnabled = true
            then [Event.detect (postFilter p inp.videoW inp.videoH rs0)] else []),
        results := postFilter p inp.videoW inp.videoH rs0,
        draws := [postFilter p inp.videoW inp.videoH rs0],
        drawn := (drawOverlayStep (postFilter p inp.videoW inp.videoH rs0)
          (readFrame p inp s).state.smoothCorners).2,
        invoked := (readFrame p inp s).invoked,
        reschedule := true } := by
  simp only [loop, h]
  rw [if_neg hc]

lemma postFilter_nil (p : Props) (cw ch : ℚ) : postFilter p cw ch [] = [] := by
  unfold postFilter
  split <;> simp

lemma wasmPath_state (p : Props) (inp : FrameInput) (s : ScannerSt) (evs : List Event) :
    (wasmPath p inp s evs).state = s := by
  cases hw : inp.wasmRaw with
  | error e => rw [wasmPath_error p inp s evs e hw]
  | ok ws => rw [wasmPath_ok p inp s evs ws hw]

lemma wasmPath_events (p : Props) (inp : FrameInput) (s : ScannerSt) (evs : List Event) :
    (wasmPath p inp s evs).events = evs := by
  cases hw : inp.wasmRaw with
  | error e => rw [wasmPath_error p inp s evs e hw]
  | ok ws => rw [wasmPath_ok p inp s evs ws hw]

lemma loop_events_ok (p : Props) (inp : FrameInput) (s : ScannerSt) (rs0 : List DetectedCode)
    (h : (readFrame p inp s).result = Except.ok rs0) :
    (loop p inp s).events = (readFrame p inp s).events ++
      (if postFilter p inp.videoW inp.videoH rs0 ≠ [] ∧ p.detectEnabled = true
        then [Event.detect (postFilter p inp.videoW inp.videoH rs0)] else []) := by
  by_cases hc : postFilter p inp.videoW inp.videoH rs0 ≠ [] ∧ p.scanOnce = true
  · rw [loop_eq_stop p inp s rs0 h hc.1 hc.2]
  · rw [loop_eq_go p inp s rs0 h hc]

lemma loop_state_bd (p : Props) (inp : FrameInput) (s : ScannerSt) :
    (loop p inp s).state.usingBarcodeAPI = (readFrame p inp s).state.usingBarcodeAPI := by
  cases hr : (readFrame p inp s).result with
  | error e => rw [loop_eq_error p inp s e hr]
  | ok rs0 =>
    by_cases hc : postFilter p inp.videoW inp.videoH rs0 ≠ [] ∧ p.scanOnce = true
    · rw [loop_eq_stop p inp s rs0 hr hc.1 hc.2]
    · rw [loop_eq_go p inp s rs0 hr hc]

/-! ## C1: ROI rectangle containment -/

lemma roiDims_bounds (cw ch : ℚ) (p : RoiProps) (hcw : 0 ≤ cw) (hch : 0 ≤ ch)
    (hr1 : p.roiSizeRatio ≤ 1) :
    0 ≤ (roiDims cw ch p).1 ∧ (roiDims cw ch p).1 ≤ min cw ch ∧
    0 ≤ (roiDims cw ch p).2 ∧ (roiDims cw ch p).2 ≤ min cw ch := by
  obtain ⟨shape, aspect, ratio, pad⟩ := p
  have hs0 : (0:ℚ) ≤ min cw ch := le_min hcw hch
  have hfl : ((⌊min cw ch * ratio⌋ : ℤ) : ℚ) ≤ min cw ch * ratio := Int.floor_le _
  have hsr : min cw ch * ratio ≤ min cw ch := mul_le_of_le_one_right hs0 hr1
  have hbase0 : (0:ℚ) ≤ max 0 ((⌊min cw ch * ratio⌋ : ℤ) : ℚ) := le_max_left _ _
  have hbase : max 0 ((⌊min cw ch * ratio⌋ : ℤ) : ℚ) ≤ min cw ch :=
    max_le hs0 (hfl.trans hsr)
  cases shape with
  | square => exact ⟨hbase0, hbase, hbase0, hbase⟩
  | rect =>
    have hasp : (0:ℚ) < max (1 / 100) aspect := lt_max_of_lt_left (by norm_num)
    by_cases ha : (1:ℚ) ≤ max (1 / 100) aspect
    · have hdiv0 : (0:ℚ) ≤ max 0 ((⌊min cw ch * ratio⌋ : ℤ) : ℚ) / max (1 / 100) aspect :=
        div_nonneg hbase0 hasp.le
      have h1 : (0:ℚ) ≤ ((⌊max 0 ((⌊min cw ch * ratio⌋ : ℤ) : ℚ) / max (1 / 100) aspect⌋ : ℤ) : ℚ) := by
        exact_mod_cast Int.le_floor.mpr (by exact_mod_cast hdiv0)
      have h2 : ((⌊max 0 ((⌊min cw ch * ratio⌋ : ℤ) : ℚ) / max (1 / 100) aspect⌋ : ℤ) : ℚ) ≤ min cw ch :=
        (Int.floor_le _).trans ((div_le_self hbase0 ha).trans hbase)
      simp only [roiDims, ha, if_true]
      exact ⟨hbase0, hbase, h1, h2⟩
    · have ha1 : max (1 / 100) aspect ≤ 1 := le_of_not_le ha
      have hmul0 : (0:ℚ) ≤ max 0 ((⌊min cw ch * ratio⌋ : ℤ) : ℚ) * max (1 / 100) aspect :=
        mul_nonneg hbase0 hasp.le
      have h1 : (0:ℚ) ≤ ((⌊max 0 ((⌊min cw ch * ratio⌋ : ℤ) : ℚ) * max (1 / 100) aspect⌋ : ℤ) : ℚ) := by
        exact_mod_cast Int.le_floor.mpr (by exact_mod_cast hmul0)
      have h2 : ((⌊max 0 ((⌊min cw ch * ratio⌋ : ℤ) : ℚ) * max (1 / 100) aspect⌋ : ℤ) : ℚ) ≤ min cw ch :=
        (Int.floor_le _).trans ((mul_le_of_le_one_right hbase0 ha1).trans hbase)
      simp only [roiDims, ha, if_false]
      exact ⟨h1, h2, hbase0, hbase⟩

lemma roiDims_pad_irrel (cw ch : ℚ) (p : RoiProps) (q : ℚ) :
    roiDims cw ch { p with roiPadding := q } = roiDims cw ch p := rfl

/-- C1 is refuted by this input: a 1 by 1 frame, size ratio 1 (inside (0,1]),
padding 2 (non-negative). The returned rectangle has x = 2 and width 0, so
x + width = 2 exceeds the frame width 1: the rectangle does not lie within
the frame, contrary to the claim. -/
theorem c1_counterexample :
    ¬ ((roiRect 1 1 { roiShape := RoiShape.square, roiAspect := 8/5, roiSizeRatio := 1, roiPadding := 2 }).x
      + (roiRect 1 1 { roiShape := RoiShape.square, roiAspect := 8/5, roiSizeRatio := 1, roiPadding := 2 }).w
      ≤ 1) := by
  with_unfolding_all decide

/-- C1 (amended): for positive integer frame dimensions, size ratio in (0,1]
and non-negative padding, the rectangle returned by roiRect has non-negative
x, y, width and height; and whenever twice the padding does not exceed the
unpadded ROI width and height (the width and height roiRect returns at
padding 0), the rectangle also lies fully within the frame:
x + width less-or-equal frameWidth and y + height less-or-equal frameHeight. -/
theorem c1_roi_in_frame (W H : ℤ) (p : RoiProps) (hW : 0 < W) (hH : 0 < H)
    (hr0 : 0 < p.roiSizeRatio) (hr1 : p.roiSizeRatio ≤ 1) (hp : 0 ≤ p.roiPadding) :
    0 ≤ (roiRect W H p).x ∧ 0 ≤ (roiRect W H p).y ∧
    0 ≤ (roiRect W H p).w ∧ 0 ≤ (roiRect W H p).h ∧
    (2 * p.roiPadding ≤ (roiRect W H { p with roiPadding := 0 }).w →
     2 * p.roiPadding ≤ (roiRect W H { p with roiPadding := 0 }).h →
     (roiRect W H p).x + (roiRect W H p).w ≤ (W : ℚ) ∧
     (roiRect W H p).y + (roiRect W H p).h ≤ (H : ℚ)) := by
  have hWq : (0:ℚ) ≤ (W : ℚ) := by exact_mod_cast hW.le
  have hHq : (0:ℚ) ≤ (H : ℚ) := by exact_mod_cast hH.le
  obtain ⟨hw0, hwle, hh0, hhle⟩ := roiDims_bounds (W : ℚ) (H : ℚ) p hWq hHq hr1
  have hwW : (roiDims (W : ℚ) (H : ℚ) p).1 ≤ (W : ℚ) := hwle.trans (min_le_left _ _)
  have hhH : (roiDims (W : ℚ) (H : ℚ) p).2 ≤ (H : ℚ) := hhle.trans (min_le_right _ _)
  have hpad : max 0 p.roiPadding = p.roiPadding := max_eq_right hp
  have hx0 : (0:ℚ) ≤ ((⌊((W : ℚ) - (roiDims (W : ℚ) (H : ℚ) p).1) / 2⌋ : ℤ) : ℚ) := by
    exact_mod_cast Int.le_floor.mpr (by exact_mod_cast div_nonneg (by linarith) (by norm_num))
  have hy0 : (0:ℚ) ≤ ((⌊((H : ℚ) - (roiDims (W : ℚ) (H : ℚ) p).2) / 2⌋ : ℤ) : ℚ) := by
    exact_mod_cast Int.le_floor.mpr (by exact_mod_cast div_nonneg (by linarith) (by norm_num))
  have hxfl : ((⌊((W : ℚ) - (roiDims (W : ℚ) (H : ℚ) p).1) / 2⌋ : ℤ) : ℚ) ≤
      ((W : ℚ) - (roiDims (W : ℚ) (H : ℚ) p).1) / 2 := Int.floor_le _
  have hyfl : ((⌊((H : ℚ) - (roiDims (W : ℚ) (H : ℚ) p).2) / 2⌋ : ℤ) : ℚ) ≤
      ((H : ℚ) - (roiDims (W : ℚ) (H : ℚ) p).2) / 2 := Int.floor_le _
  have hr0w : (roiRect (W : ℚ) (H : ℚ) { p with roiPadding := 0 }).w =
      (roiDims (W : ℚ) (H : ℚ) p).1 := by
    simp only [roiRect, roiDims_pad_irrel, max_self, mul_zero, sub_zero]
    exact max_eq_right hw0
  have hr0h : (roiRect (W : ℚ) (H : ℚ) { p with roiPadding := 0 }).h =
      (roiDims (W : ℚ) (H : ℚ) p).2 := by
    simp only [roiRect, roiDims_pad_irrel, max_self, mul_zero, sub_zero]
    exact max_eq_right hh0
  refine ⟨?_, ?_, ?_, ?_, ?_⟩
  · show (0:ℚ) ≤ _ + max 0 p.roiPadding
    rw [hpad]; linarith
  · show (0:ℚ) ≤ _ + max 0 p.roiPadding
    rw [hpad]; linarith
  · exact le_max_left _ _
  · exact le_max_left _ _
  · intro h2w h2h
    rw [hr0w] at h2w
    rw [hr0h] at h2h
    constructor
    · show _ + max 0 p.roiPadding + max 0 ((roiDims (W : ℚ) (H : ℚ) p).1 - 2 * max 0 p.roiPadding) ≤ _
      rw [hpad, max_eq_right (by linarith)]
      linarith
    · show _ + max 0 p.roiPadding + max 0 ((roiDims (W : ℚ) (H : ℚ) p).2 - 2 * max 0 p.roiPadding) ≤ _
      rw [hpad, max_eq_right (by linarith)]
      linarith

/-- Concrete instance of c1_roi_in_frame: a 100 by 80 frame, square ROI with
size ratio one half and padding 3 yields rectangle (33, 23, 34, 34), which is
non-negative and inside the frame. -/
theorem c1_witness :
    0 ≤ (roiRect ((100 : ℤ) : ℚ) ((80 : ℤ) : ℚ) { roiShape := RoiShape.square, roiAspect := 8/5, roiSizeRatio := 1/2, roiPadding := 3 }).x ∧
    0 ≤ (roiRect ((100 : ℤ) : ℚ) ((80 : ℤ) : ℚ) { roiShape := RoiShape.square, roiAspect := 8/5, roiSizeRatio := 1/2, roiPadding := 3 }).y ∧
    0 ≤ (roiRect ((100 : ℤ) : ℚ) ((80 : ℤ) : ℚ) { roiShape := RoiShape.square, roiAspect := 8/5, roiSizeRatio := 1/2, roiPadding := 3 }).w ∧
    0 ≤ (roiRect ((100 : ℤ) : ℚ) ((80 : ℤ) : ℚ) { roiShape := RoiShape.square, roiAspect := 8/5, roiSizeRatio := 1/2, roiPadding := 3 }).h ∧
    (roiRect ((100 : ℤ) : ℚ) ((80 : ℤ) : ℚ) { roiShape := RoiShape.square, roiAspect := 8/5, roiSizeRatio := 1/2, roiPadding := 3 }).x
      + (roiRect ((100 : ℤ) : ℚ) ((80 : ℤ) : ℚ) { roiShape := RoiShape.square, roiAspect := 8/5, roiSizeRatio := 1/2, roiPadding := 3 }).w ≤ ((100 : ℤ) : ℚ) ∧
    (roiRect ((100 : ℤ) : ℚ) ((80 : ℤ) : ℚ) { roiShape := RoiShape.square, roiAspect := 8/5, roiSizeRatio := 1/2, roiPadding := 3 }).y
      + (roiRect ((100 : ℤ) : ℚ) ((80 : ℤ) : ℚ) { roiShape := RoiShape.square, roiAspect := 8/5, roiSizeRatio := 1/2, roiPadding := 3 }).h ≤ ((80 : ℤ) : ℚ) := by
  have h := c1_roi_in_frame 100 80
    { roiShape := RoiShape.square, roiAspect := 8/5, roiSizeRatio := 1/2, roiPadding := 3 }
    (by norm_num) (by norm_num) (by norm_num) (by norm_num) (by norm_num)
  have h2 := h.2.2.2.2 (by with_unfolding_all decide) (by with_unfolding_all decide)
  exact ⟨h.1, h.2.1, h.2.2.1, h.2.2.2.1, h2.1, h2.2⟩

/-! ## C6: exponential-moving-average smoothing -/

/-- v lies strictly between a and b (in either order). -/
def strictlyBetween (a b v : ℚ) : Prop := (a < v ∧ v < b) ∨ (b < v ∧ v < a)

instance (a b v : ℚ) : Decidable (strictlyBetween a b v) := by
  unfold strictlyBetween; infer_instance

lemma mem_zip_zipWith {α β γ : Type} (f : α → β → γ) :
    ∀ (l1 : List α) (l2 : List β) (t : (α × β) × γ),
      t ∈ List.zip (List.zip l1 l2) (List.zipWith f l1 l2) → t.2 = f t.1.1 t.1.2 := by
  intro l1
  induction l1 with
  | nil => intro l2 t ht; simp at ht
  | cons a l ih =>
    intro l2 t ht
    cases l2 with
    | nil => simp at ht
    | cons b l2t =>
      simp only [List.zip_cons_cons, List.zipWith_cons_cons, List.mem_cons] at ht
      rcases ht with h | h
      · rw [h]
      · exact ih l2t t h

lemma ema_zipWith (a : ℚ) (pr nx : List Pt) (h : pr.length = nx.length) :
    emaCornersA a (some pr) nx =
      List.zipWith
        (fun p q => ({ x := q.x + a * (p.x - q.x), y := q.y + a * (p.y - q.y) } : Pt))
        nx pr := by
  simp [emaCornersA, h]

lemma ema_blend_coord (a : ℚ) (px qx : ℚ) (ha : a ≠ 1) :
    qx + a * (px - qx) = px ↔ qx = px := by
  constructor
  · intro h
    have h2 : (a - 1) * (px - qx) = 0 := by linear_combination h
    rcases mul_eq_zero.mp h2 with h3 | h3
    · exact absurd (by linarith) ha
    · linarith
  · intro h; rw [h]; ring

lemma emaCornersA_eq_self (a : ℚ) (ha : a ≠ 1) :
    ∀ (nx pr : List Pt), pr.length = nx.length →
      (emaCornersA a (some pr) nx = nx ↔ pr = nx) := by
  intro nx
  induction nx with
  | nil =>
    intro pr h
    cases pr with
    | nil => simp [emaCornersA]
    | cons b t => simp at h
  | cons p nxt ih =>
    intro pr h
    cases pr with
    | nil => simp at h
    | cons q prt =>
      have hlen : prt.length = nxt.length := by simpa using h
      rw [ema_zipWith a _ _ h]
      simp only [List.zipWith_cons_cons, List.cons.injEq]
      rw [← ema_zipWith a prt nxt hlen]
      constructor
      · rintro ⟨h1, h2⟩
        have hx := (ema_blend_coord a p.x q.x ha).mp (congrArg Pt.x h1)
        have hy := (ema_blend_coord a p.y q.y ha).mp (congrArg Pt.y h1)
        exact ⟨Pt.ext hx hy, (ih prt hlen).mp h2⟩
      · rintro ⟨h1, h2⟩
        refine ⟨?_, (ih prt hlen).mpr h2⟩
        rw [h1]
        exact Pt.ext (by ring) (by ring)

/-- C6 is refuted at this input: with the fixed smoothing factor 0.35 (which
lies in (0,1)), previous polygon P = [(0,0)] and next polygon Q = [(0,1)]
have equal vertex counts, yet the x coordinate of the smoothed result equals
0, which does not lie strictly between the x coordinates of P and Q (both 0),
contrary to the claim that every coordinate lies strictly between. -/
theorem c6_counterexample :
    0 < SMOOTH_ALPHA ∧ SMOOTH_ALPHA < 1 ∧
    ¬ strictlyBetween (({ x := 0, y := 0 } : Pt)).x (({ x := 0, y := 1 } : Pt)).x
        ((emaCorners (some [{ x := 0, y := 0 }]) [{ x := 0, y := 1 }]).headI.x) := by
  refine ⟨by norm_num [SMOOTH_ALPHA], by norm_num [SMOOTH_ALPHA], ?_⟩
  with_unfolding_all decide

/-- C6 (amended): smoothing with absent previous polygon returns a polygon
equal to the next one, and likewise when the vertex counts differ; with equal
vertex counts and smoothing factor a in (0,1), each coordinate of the result
lies strictly between the corresponding coordinates of the previous and next
polygons whenever those differ, and equals them when they coincide; with
factor a = 1 the result equals the next polygon. -/
theorem c6_smooth (a : ℚ) (pr nx : List Pt) (ha0 : 0 < a) (ha1 : a < 1) :
    emaCornersA a none nx = nx ∧
    (pr.length ≠ nx.length → emaCornersA a (some pr) nx = nx) ∧
    (pr.length = nx.length →
      ∀ t ∈ List.zip (List.zip nx pr) (emaCornersA a (some pr) nx),
        (t.1.2.x ≠ t.1.1.x → strictlyBetween t.1.2.x t.1.1.x t.2.x) ∧
        (t.1.2.x = t.1.1.x → t.2.x = t.1.1.x) ∧
        (t.1.2.y ≠ t.1.1.y → strictlyBetween t.1.2.y t.1.1.y t.2.y) ∧
        (t.1.2.y = t.1.1.y → t.2.y = t.1.1.y)) ∧
    (pr.length = nx.length → emaCornersA 1 (some pr) nx = nx) := by
  refine ⟨by simp [emaCornersA, ptCopy_map], fun h => by simp [emaCornersA, h, ptCopy_map], ?_, ?_⟩
  · intro h t ht
    rw [ema_zipWith a pr nx h] at ht
    have hval := mem_zip_zipWith _ nx pr t ht
    have hbet : ∀ (qc pc : ℚ), qc ≠ pc → strictlyBetween qc pc (qc + a * (pc - qc)) := by
      intro qc pc hne
      rcases lt_or_gt_of_ne hne with hlt | hgt
      · exact Or.inl ⟨by nlinarith, by nlinarith⟩
      · exact Or.inr ⟨by nlinarith, by nlinarith⟩
    refine ⟨fun hne => ?_, fun heq => ?_, fun hne => ?_, fun heq => ?_⟩
    · rw [hval]; exact hbet _ _ hne
    · rw [hval]; show t.1.2.x + a * (t.1.1.x - t.1.2.x) = t.1.1.x
      rw [heq]; ring
    · rw [hval]; exact hbet _ _ hne
    · rw [hval]; show t.1.2.y + a * (t.1.1.y - t.1.2.y) = t.1.1.y
      rw [heq]; ring
  · intro h
    rw [ema_zipWith 1 pr nx h]
    have : ∀ (nx2 pr2 : List Pt), pr2.length = nx2.length →
        List.zipWith
          (fun p q => ({ x := q.x + 1 * (p.x - q.x), y := q.y + 1 * (p.y - q.y) } : Pt))
          nx2 pr2 = nx2 := by
      intro nx2
      induction nx2 with
      | nil => intro pr2 h2; simp
      | cons p nxt ih =>
        intro pr2 h2
        cases pr2 with
        | nil => simp at h2
        | cons q prt =>
          have hlen : prt.length = nxt.length := by simpa using h2
          simp only [List.zipWith_cons_cons, ih prt hlen, List.cons.injEq, and_true]
          exact Pt.ext (by ring) (by ring)
    exact this nx pr h

/-- Concrete instance of c6_smooth at factor one half, previous [(0,0)] and
next [(2,4)]: absent-previous smoothing is the identity, and the blended
coordinates (1,2) lie strictly between. -/
theorem c6_witness :
    emaCornersA (1/2) none [({ x := 2, y := 4 } : Pt)] = [({ x := 2, y := 4 } : Pt)] ∧
    (([({ x := 0, y := 0 } : Pt)].length = [({ x := 2, y := 4 } : Pt)].length) →
      ∀ t ∈ List.zip (List.zip [({ x := 2, y := 4 } : Pt)] [({ x := 0, y := 0 } : Pt)])
          (emaCornersA (1/2) (some [{ x := 0, y := 0 }]) [{ x := 2, y := 4 }]),
        (t.1.2.x ≠ t.1.1.x → strictlyBetween t.1.2.x t.1.1.x t.2.x) ∧
        (t.1.2.x = t.1.1.x → t.2.x = t.1.1.x) ∧
        (t.1.2.y ≠ t.1.1.y → strictlyBetween t.1.2.y t.1.1.y t.2.y) ∧
        (t.1.2.y = t.1.1.y → t.2.y = t.1.1.y)) := by
  have h := c6_smooth (1/2) [({ x := 0, y := 0 } : Pt)] [({ x := 2, y := 4 } : Pt)]
    (by norm_num) (by norm_num)
  exact ⟨h.1, h.2.2.1⟩

/-! ## Concrete fixtures -/

/-- A concrete ROI configuration used in witnesses. -/
def fxRoi : RoiProps :=
  { roiShape := RoiShape.square, roiAspect := 8/5, roiSizeRatio := 3/5, roiPadding := 0 }

/-- A concrete detection with a square polygon, used in witnesses. -/
def fxDc : DetectedCode :=
  { rawValue := "code", format := some "qr_code",
    corners := some [{ x := 1, y := 1 }, { x := 3, y := 1 }, { x := 3, y := 3 }, { x := 1, y := 3 }] }

/-! ## C2: time-based fallback to WASM -/

/-- Props for the C2 counterexample: bdTimeoutMs 1000, processed every frame. -/
def c2P : Props :=
  { frameInterval := 1, roi := fxRoi, useRoi := true, filterInsideRoi := false,
    bdTimeoutMs := 1000, bdMaxZeroFrames := 30, detectEnabled := true, scanOnce := false }

/-- State for the C2 counterexample: native engine active since time 0. -/
def c2S : ScannerSt :=
  { usingBarcodeAPI := true, zeroFrameStreak := 5, bdStartTs := 0, frameCount := 0,
    smoothCorners := none, running := true }

/-- Frame for the C2 counterexample: at time 1500 (elapsed 1500 ms, beyond the
1000 ms timeout) the native detection returns a non-empty result list. -/
def c2Inp : FrameInput :=
  { now := 1500, native := Except.ok [fxDc], wasmRaw := Except.ok [],
    videoW := 640, videoH := 480 }

/-- C2 is refuted at this input: with bdTimeoutMs 1000, the native engine
active and elapsed time 1500 ms at this processed frame, the native
detection returns a non-empty result, and the code does NOT transition to
the WASM engine on that frame (the engine stays native and no event is
emitted) — contradicting the claim that the transition happens regardless of
whether the frame returned results. -/
theorem c2_counterexample :
    c2P.bdTimeoutMs = 1000 ∧
    c2S.usingBarcodeAPI = true ∧
    (c2S.frameCount + 1) % c2P.frameInterval = 0 ∧
    1000 ≤ c2Inp.now - c2S.bdStartTs ∧
    c2Inp.native = Except.ok [fxDc] ∧
    (readFrame c2P c2Inp c2S).state.usingBarcodeAPI = true ∧
    (readFrame c2P c2Inp c2S).events = [] := by
  refine ⟨rfl, rfl, by decide, by with_unfolding_all decide, rfl, ?_, ?_⟩
  · with_unfolding_all rfl
  · with_unfolding_all rfl

/-- C2 (amended): with bdTimeoutMs = 1000 and the native engine active, any
processed frame whose native detection returns an EMPTY result and at which
the elapsed time since native activation is at least 1000 ms transitions to
the WASM engine on that frame, regardless of the zero-result streak; a
processed frame whose native detection returns a non-empty result does not
transition on that frame, even when the elapsed time is past the timeout. -/
theorem c2_timeout_fallback (p : Props) (inp : FrameInput) (s : ScannerSt)
    (hT : p.bdTimeoutMs = 1000)
    (hproc : (s.frameCount + 1) % p.frameInterval = 0)
    (hbd : s.usingBarcodeAPI = true)
    (hel : 1000 ≤ inp.now - s.bdStartTs)
    (hemp : inp.native = Except.ok []) :
    ((readFrame p inp s).state.usingBarcodeAPI = false ∧
     Event.engineChange Engine.wasm ∈ (readFrame p inp s).events) ∧
    (∀ inp2 : FrameInput, ∀ rs : List DetectedCode,
      inp2.native = Except.ok rs → rs ≠ [] →
      (readFrame p inp2 s).state.usingBarcodeAPI = true ∧
      (readFrame p inp2 s).events = []) := by
  constructor
  · rw [readFrame_native_empty_fire p inp s hproc hbd hemp
      (Or.inl ⟨by rw [hT]; norm_num, by rw [hT]; exact hel⟩)]
    rw [wasmPath_state, wasmPath_events]
    exact ⟨rfl, by simp⟩
  · intro inp2 rs h2 hne
    rw [readFrame_native_some p inp2 s rs hproc hbd h2 hne]
    exact ⟨hbd, rfl⟩

/-- Empty-result frame at time 1200 used in the C2 witness. -/
def c2InpW : FrameInput :=
  { now := 1200, native := Except.ok [], wasmRaw := Except.ok [],
    videoW := 640, videoH := 480 }

/-- Concrete instance of c2_timeout_fallback: at elapsed 1200 ms with an
empty native result the engine transitions to WASM and announces it. -/
theorem c2_witness :
    ((readFrame c2P c2InpW c2S).state.usingBarcodeAPI = false ∧
     Event.engineChange Engine.wasm ∈ (readFrame c2P c2InpW c2S).events) ∧
    (∀ inp2 : FrameInput, ∀ rs : List DetectedCode,
      inp2.native = Except.ok rs → rs ≠ [] →
      (readFrame c2P inp2 c2S).state.usingBarcodeAPI = true ∧
      (readFrame c2P inp2 c2S).events = []) :=
  c2_timeout_fallback c2P c2InpW c2S rfl (by decide) rfl (by with_unfolding_all decide) rfl

/-! ## C3: streak-based fallback to WASM -/

/-- C3: with bdMaxZeroFrames = 3, the time-based fallback disabled
(bdTimeoutMs = 0, its documented off value) and every frame processed,
starting from a zero streak three consecutive empty native results
transition to WASM exactly on the third frame (the first two frames leave
the native engine active with streaks 1 and 2 and emit nothing); and any
processed frame whose native detection returns a non-empty result resets the
streak to 0, stays on the native engine and emits nothing. -/
theorem c3_streak_fallback (p : Props) (s0 : ScannerSt) (inp1 inp2 inp3 : FrameInput)
    (hM : p.bdMaxZeroFrames = 3) (hT : p.bdTimeoutMs = 0) (hF : p.frameInterval = 1)
    (hbd : s0.usingBarcodeAPI = true) (hz : s0.zeroFrameStreak = 0)
    (h1 : inp1.native = Except.ok []) (h2 : inp2.native = Except.ok [])
    (h3 : inp3.native = Except.ok []) :
    ((readFrame p inp1 s0).state.usingBarcodeAPI = true ∧
     (readFrame p inp1 s0).state.zeroFrameStreak = 1 ∧
     (readFrame p inp1 s0).events = []) ∧
    ((readFrame p inp2 (readFrame p inp1 s0).state).state.usingBarcodeAPI = true ∧
     (readFrame p inp2 (readFrame p inp1 s0).state).state.zeroFrameStreak = 2 ∧
     (readFrame p inp2 (readFrame p inp1 s0).state).events = []) ∧
    ((readFrame p inp3 (readFrame p inp2 (readFrame p inp1 s0).state).state).state.usingBarcodeAPI
        = false ∧
     Event.engineChange Engine.wasm ∈
       (readFrame p inp3 (readFrame p inp2 (readFrame p inp1 s0).state).state).events) ∧
    (∀ inp : FrameInput, ∀ s : ScannerSt, ∀ rs : List DetectedCode,
      s.usingBarcodeAPI = true → inp.native = Except.ok rs → rs ≠ [] →
      (readFrame p inp s).state.zeroFrameStreak = 0 ∧
      (readFrame p inp s).state.usingBarcodeAPI = true ∧
      (readFrame p inp s).events = []) := by
  have hproc : ∀ n : ℕ, (n + 1) % p.frameInterval = 0 := by
    intro n; rw [hF]; exact Nat.mod_one _
  have hTno : ∀ q : ℚ, ¬ (0 < p.bdTimeoutMs ∧ p.bdTimeoutMs ≤ q) := by
    intro q; rw [hT]; rintro ⟨hlt, _⟩; exact lt_irrefl 0 hlt
  rw [readFrame_native_empty_quiet p inp1 s0 (hproc _) hbd h1 (hTno _)
    (by rw [hM, hz]; omega)]
  rw [readFrame_native_empty_quiet p inp2
    { s0 with frameCount := 0, zeroFrameStreak := s0.zeroFrameStreak + 1 }
    (hproc _) hbd h2 (hTno _) (by simp only [hM, hz]; omega)]
  rw [readFrame_native_empty_fire p inp3
    { s0 with frameCount := 0, zeroFrameStreak := s0.zeroFrameStreak + 1 + 1 }
    (hproc _) hbd h3
    (Or.inr ⟨by rw [hM]; omega, by simp only [hM, hz]; omega⟩)]
  rw [wasmPath_state, wasmPath_events]
  refine ⟨⟨hbd, by simp [hz], rfl⟩, ⟨hbd, by simp [hz], rfl⟩, ⟨rfl, by simp⟩, ?_⟩
  intro inp s rs hbd2 hok hne
  rw [readFrame_native_some p inp s rs (hproc _) hbd2 hok hne]
  exact ⟨rfl, hbd2, rfl⟩

/-- Props for the C3 witness: streak limit 3, timeout disabled. -/
def c3P : Props :=
  { frameInterval := 1, roi := fxRoi, useRoi := true, filterInsideRoi := false,
    bdTimeoutMs := 0, bdMaxZeroFrames := 3, detectEnabled := true, scanOnce := false }

/-- State for the C3 witness: native engine active, streak 0. -/
def c3S : ScannerSt :=
  { usingBarcodeAPI := true, zeroFrameStreak := 0, bdStartTs := 0, frameCount := 0,
    smoothCorners := none, running := true }

/-- Empty-result frame used in the C3 witness. -/
def c3Inp : FrameInput :=
  { now := 16, native := Except.ok [], wasmRaw := Except.ok [],
    videoW := 640, videoH := 480 }

/-- Concrete instance of c3_streak_fallback on three identical empty
frames. -/
theorem c3_witness :
    ((readFrame c3P c3Inp c3S).state.usingBarcodeAPI = true ∧
     (readFrame c3P c3Inp c3S).state.zeroFrameStreak = 1 ∧
     (readFrame c3P c3Inp c3S).events = []) ∧
    ((readFrame c3P c3Inp (readFrame c3P c3Inp c3S).state).state.usingBarcodeAPI = true ∧
     (readFrame c3P c3Inp (readFrame c3P c3Inp c3S).state).state.zeroFrameStreak = 2 ∧
     (readFrame c3P c3Inp (readFrame c3P c3Inp c3S).state).events = []) ∧
    ((readFrame c3P c3Inp
        (readFrame c3P c3Inp (readFrame c3P c3Inp c3S).state).state).state.usingBarcodeAPI
        = false ∧
     Event.engineChange Engine.wasm ∈
       (readFrame c3P c3Inp
         (readFrame c3P c3Inp (readFrame c3P c3Inp c3S).state).state).events) ∧
    (∀ inp : FrameInput, ∀ s : ScannerSt, ∀ rs : List DetectedCode,
      s.usingBarcodeAPI = true → inp.native = Except.ok rs → rs ≠ [] →
      (readFrame c3P inp s).state.zeroFrameStreak = 0 ∧
      (readFrame c3P inp s).state.usingBarcodeAPI = true ∧
      (readFrame c3P inp s).events = []) :=
  c3_streak_fallback c3P c3S c3Inp c3Inp c3Inp rfl rfl rfl rfl rfl rfl rfl rfl

/-! ## C7: native detection errors are handled by demotion, not surfaced -/

/-- C7: when the native detection call throws on a processed frame, the loop
does not emit an error event for it; instead the selector demotes to WASM
(emitting the engine-change notification) and the same frame continues on
the WASM path, whose mapped results become the frame's results; only if the
WASM call itself then throws does the loop emit a per-frame error event. -/
theorem c7_native_error_demotes (p : Props) (inp : FrameInput) (s : ScannerSt) (e : String)
    (hproc : (s.frameCount + 1) % p.frameInterval = 0)
    (hbd : s.usingBarcodeAPI = true)
    (hN : inp.native = Except.error e) :
    Event.engineChange Engine.wasm ∈ (loop p inp s).events ∧
    (loop p inp s).state.usingBarcodeAPI = false ∧
    (∀ ws : List DetectedCode, inp.wasmRaw = Except.ok ws →
      (∀ msg : String, Event.error msg ∉ (loop p inp s).events) ∧
      (readFrame p inp s).result = Except.ok
        (wasmMap (if p.useRoi then (roiRect inp.videoW inp.videoH p.roi).x else 0)
                 (if p.useRoi then (roiRect inp.videoW inp.videoH p.roi).y else 0) ws)) ∧
    (∀ e2 : String, inp.wasmRaw = Except.error e2 →
      Event.error e2 ∈ (loop p inp s).events) := by
  have hrf := readFrame_native_error p inp s e hproc hbd hN
  have hst : (readFrame p inp s).state.usingBarcodeAPI = false := by
    rw [hrf, wasmPath_state]
  have hev : (readFrame p inp s).events = [Event.engineChange Engine.wasm] := by
    rw [hrf, wasmPath_events]
  refine ⟨?_, ?_, ?_, ?_⟩
  · cases hw : inp.wasmRaw with
    | error e2 =>
      have hres : (readFrame p inp s).result = Except.error e2 := by
        rw [hrf, wasmPath_error p inp _ _ e2 hw]
      rw [loop_eq_error p inp s e2 hres]
      simp [hev]
    | ok ws =>
      have hres : (readFrame p inp s).result = Except.ok
          (wasmMap (if p.useRoi then (roiRect inp.videoW inp.videoH p.roi).x else 0)
                   (if p.useRoi then (roiRect inp.videoW inp.videoH p.roi).y else 0) ws) := by
        rw [hrf, wasmPath_ok p inp _ _ ws hw]
      rw [loop_events_ok p inp s _ hres, hev]
      simp
  · rw [loop_state_bd, hst]
  · intro ws hw
    have hres : (readFrame p inp s).result = Except.ok
        (wasmMap (if p.useRoi then (roiRect inp.videoW inp.videoH p.roi).x else 0)
                 (if p.useRoi then (roiRect inp.videoW inp.videoH p.roi).y else 0) ws) := by
      rw [hrf, wasmPath_ok p inp _ _ ws hw]
    refine ⟨?_, hres⟩
    intro msg hmem
    rw [loop_events_ok p inp s _ hres, hev] at hmem
    rcases List.mem_append.mp hmem with hmem | hmem
    · simp at hmem
    · by_cases hc : postFilter p inp.videoW inp.videoH
          (wasmMap (if p.useRoi then (roiRect inp.videoW inp.videoH p.roi).x else 0)
                   (if p.useRoi then (roiRect inp.videoW inp.videoH p.roi).y else 0) ws) ≠ []
          ∧ p.detectEnabled = true
      · rw [if_pos hc] at hmem; simp at hmem
      · rw [if_neg hc] at hmem; simp at hmem
  · intro e2 hw
    have hres : (readFrame p inp s).result = Except.error e2 := by
      rw [hrf, wasmPath_error p inp _ _ e2 hw]
    rw [loop_eq_error p inp s e2 hres]
    simp

/-- Frame for the C7 witness: the native call throws, the WASM call
succeeds with one result. -/
def c7Inp : FrameInput :=
  { now := 16, native := Except.error "bd broke", wasmRaw := Except.ok [fxDc],
    videoW := 640, videoH := 480 }

/-- Concrete instance of c7_native_error_demotes: native throws, WASM
succeeds; the engine change is announced and no error is surfaced. -/
theorem c7_witness :
    Event.engineChange Engine.wasm ∈ (loop c2P c7Inp c2S).events ∧
    (loop c2P c7Inp c2S).state.usingBarcodeAPI = false ∧
    (∀ ws : List DetectedCode, c7Inp.wasmRaw = Except.ok ws →
      (∀ msg : String, Event.error msg ∉ (loop c2P c7Inp c2S).events) ∧
      (readFrame c2P c7Inp c2S).result = Except.ok
        (wasmMap (if c2P.useRoi then (roiRect c7Inp.videoW c7Inp.videoH c2P.roi).x else 0)
                 (if c2P.useRoi then (roiRect c7Inp.videoW c7Inp.videoH c2P.roi).y else 0) ws)) ∧
    (∀ e2 : String, c7Inp.wasmRaw = Except.error e2 →
      Event.error e2 ∈ (loop c2P c7Inp c2S).events) :=
  c7_native_error_demotes c2P c7Inp c2S "bd broke" (by decide) rfl rfl

/-! ## Further helper lemmas: overlay state, event shapes, loop shapes -/

/-- Line 378 of QrScanner.vue: the overlay is active when the top result has
a non-empty corner list. -/
def frameActive (rs : List DetectedCode) : Bool :=
  match rs.head?.bind DetectedCode.corners with
  | some cs => !cs.isEmpty
  | none => false

lemma drawOverlayStep_inactive (rs : List DetectedCode) (sc : Option (List Pt))
    (h : frameActive rs = false) : drawOverlayStep rs sc = (sc, none) := by
  unfold frameActive at h
  unfold drawOverlayStep
  cases hb : rs.head?.bind DetectedCode.corners with
  | none => rfl
  | some cs =>
    rw [hb] at h
    have hcs : cs = [] := by
      cases cs with
      | nil => rfl
      | cons a t => simp at h
    subst hcs
    simp

lemma drawOverlayStep_active (rs : List DetectedCode) (sc : Option (List Pt))
    (cs : List Pt) (hb : rs.head?.bind DetectedCode.corners = some cs) (hne : cs ≠ []) :
    drawOverlayStep rs sc = (some (emaCorners sc cs), some (emaCorners sc cs)) := by
  unfold drawOverlayStep
  rw [hb]
  have : cs.length ≠ 0 := fun h => hne (List.length_eq_zero.mp h)
  simp [this]

lemma readFrame_smoothCorners (p : Props) (inp : FrameInput) (s : ScannerSt) :
    (readFrame p inp s).state.smoothCorners = s.smoothCorners := by
  by_cases hfc : (s.frameCount + 1) % p.frameInterval = 0
  · by_cases hbd : s.usingBarcodeAPI = true
    · cases hN : inp.native with
      | error e => rw [readFrame_native_error p inp s e hfc hbd hN, wasmPath_state]
      | ok rs =>
        by_cases hrs : rs = []
        · subst hrs
          by_cases hfire : (0 < p.bdTimeoutMs ∧ p.bdTimeoutMs ≤ inp.now - s.bdStartTs) ∨
              (0 < p.bdMaxZeroFrames ∧ p.bdMaxZeroFrames ≤ s.zeroFrameStreak + 1)
          · rw [readFrame_native_empty_fire p inp s hfc hbd hN hfire, wasmPath_state]
          · obtain ⟨hq1, hq2⟩ := not_or.mp hfire
            rw [readFrame_native_empty_quiet p inp s hfc hbd hN hq1 hq2]
        · rw [readFrame_native_some p inp s rs hfc hbd hN hrs]
    · have hbd2 : s.usingBarcodeAPI = false := by
        revert hbd; cases s.usingBarcodeAPI <;> simp
      rw [readFrame_no_bd p inp s hfc hbd2, wasmPath_state]
  · rw [readFrame_skip p inp s hfc]

lemma readFrame_events_shape (p : Props) (inp : FrameInput) (s : ScannerSt) :
    ∀ ev ∈ (readFrame p inp s).events, ev = Event.engineChange Engine.wasm := by
  by_cases hfc : (s.frameCount + 1) % p.frameInterval = 0
  · by_cases hbd : s.usingBarcodeAPI = true
    · cases hN : inp.native with
      | error e =>
        rw [readFrame_native_error p inp s e hfc hbd hN, wasmPath_events]
        intro ev hev
        simpa using hev
      | ok rs =>
        by_cases hrs : rs = []
        · subst hrs
          by_cases hfire : (0 < p.bdTimeoutMs ∧ p.bdTimeoutMs ≤ inp.now - s.bdStartTs) ∨
              (0 < p.bdMaxZeroFrames ∧ p.bdMaxZeroFrames ≤ s.zeroFrameStreak + 1)
          · rw [readFrame_native_empty_fire p inp s hfc hbd hN hfire, wasmPath_events]
            intro ev hev
            simpa using hev
          · obtain ⟨hq1, hq2⟩ := not_or.mp hfire
            rw [readFrame_native_empty_quiet p inp s hfc hbd hN hq1 hq2]
            intro ev hev
            simp at hev
        · rw [readFrame_native_some p inp s rs hfc hbd hN hrs]
          intro ev hev
          simp at hev
    · have hbd2 : s.usingBarcodeAPI = false := by
        revert hbd; cases s.usingBarcodeAPI <;> simp
      rw [readFrame_no_bd p inp s hfc hbd2, wasmPath_events]
      intro ev hev
      simp at hev
  · rw [readFrame_skip p inp s hfc]
    intro ev hev
    simp at hev

lemma loop_results_ok (p : Props) (inp : FrameInput) (s : ScannerSt) (rs0 : List DetectedCode)
    (h : (readFrame p inp s).result = Except.ok rs0) :
    (loop p inp s).results = postFilter p inp.videoW inp.videoH rs0 := by
  by_cases hc : postFilter p inp.videoW inp.videoH rs0 ≠ [] ∧ p.scanOnce = true
  · rw [loop_eq_stop p inp s rs0 h hc.1 hc.2]
  · rw [loop_eq_go p inp s rs0 h hc]

lemma loop_stop_char (p : Props) (inp : FrameInput) (s : ScannerSt)
    (hsc : p.scanOnce = true) (hne : (loop p inp s).results ≠ []) :
    (loop p inp s).reschedule = false ∧ (loop p inp s).state.running = false ∧
    (loop p inp s).draws = [(loop p inp s).results] := by
  cases hr : (readFrame p inp s).result with
  | error e =>
    rw [loop_eq_error p inp s e hr] at hne
    exact absurd rfl hne
  | ok rs0 =>
    have hpf : postFilter p inp.videoW inp.videoH rs0 ≠ [] := by
      rw [loop_results_ok p inp s rs0 hr] at hne
      exact hne
    rw [loop_eq_stop p inp s rs0 hr hpf hsc]
    exact ⟨rfl, rfl, rfl⟩

lemma loop_go_char (p : Props) (inp : FrameInput) (s : ScannerSt)
    (hres : (loop p inp s).results = []) : (loop p inp s).reschedule = true := by
  cases hr : (readFrame p inp s).result with
  | error e => rw [loop_eq_error p inp s e hr]
  | ok rs0 =>
    have hpf : postFilter p inp.videoW inp.videoH rs0 = [] := by
      rw [loop_results_ok p inp s rs0 hr] at hres
      exact hres
    rw [loop_eq_go p inp s rs0 hr (by simp [hpf])]

lemma loop_no_detect (p : Props) (inp : FrameInput) (s : ScannerSt)
    (hd : p.detectEnabled = false) :
    ∀ rs : List DetectedCode, Event.detect rs ∉ (loop p inp s).events := by
  intro rs hmem
  cases hr : (readFrame p inp s).result with
  | error e =>
    rw [loop_eq_error p inp s e hr] at hmem
    rcases List.mem_append.mp hmem with h | h
    · exact absurd (readFrame_events_shape p inp s _ h) (by simp)
    · simp at h
  | ok rs0 =>
    rw [loop_events_ok p inp s rs0 hr] at hmem
    rw [if_neg (by simp [hd])] at hmem
    rw [List.append_nil] at hmem
    exact absurd (readFrame_events_shape p inp s _ hmem) (by simp)

lemma runLoop_mem_loop (p : Props) :
    ∀ (inps : List FrameInput) (s : ScannerSt) (o : LoopOut),
      o ∈ runLoop p inps s → ∃ inp s2, o = loop p inp s2 := by
  intro inps
  induction inps with
  | nil => intro s o ho; simp [runLoop] at ho
  | cons inp rest ih =>
    intro s o ho
    rw [show runLoop p (inp :: rest) s =
      loop p inp s ::
        (if (loop p inp s).reschedule then runLoop p rest (loop p inp s).state else [])
      from rfl] at ho
    rcases List.mem_cons.mp ho with h | h
    · exact ⟨inp, s, h⟩
    · by_cases hres : (loop p inp s).reschedule
      · rw [if_pos hres] at h
        exact ih (loop p inp s).state o h
      · rw [if_neg hres] at h
        simp at h

/-! ## C8: ROI-containment filter with inclusive bounds -/

/-- C8: with filterInsideRoi enabled and a frame whose top result carries a
polygon, the result set is kept exactly when the centroid of that polygon
lies within the ROI rectangle under inclusive comparisons (so a centroid
exactly on the boundary counts as inside), and when the test fails every
result of the frame is discarded. -/
theorem c8_roi_filter (p : Props) (cw ch : ℚ) (rs : List DetectedCode)
    (d : DetectedCode) (cs : List Pt)
    (hf : p.filterInsideRoi = true) (hh : rs.head? = some d) (hc : d.corners = some cs) :
    (postFilter p cw ch rs = rs ↔
      ((roiRect cw ch p.roi).x ≤ (centroid cs).x ∧
       (centroid cs).x ≤ (roiRect cw ch p.roi).x + (roiRect cw ch p.roi).w ∧
       (roiRect cw ch p.roi).y ≤ (centroid cs).y ∧
       (centroid cs).y ≤ (roiRect cw ch p.roi).y + (roiRect cw ch p.roi).h)) ∧
    (¬ ((roiRect cw ch p.roi).x ≤ (centroid cs).x ∧
        (centroid cs).x ≤ (roiRect cw ch p.roi).x + (roiRect cw ch p.roi).w ∧
        (roiRect cw ch p.roi).y ≤ (centroid cs).y ∧
        (centroid cs).y ≤ (roiRect cw ch p.roi).y + (roiRect cw ch p.roi).h) →
      postFilter p cw ch rs = []) := by
  have hrs : rs ≠ [] := by
    intro h
    rw [h] at hh
    simp at hh
  have hbind : rs.head?.bind DetectedCode.corners = some cs := by
    rw [hh]
    simpa using hc
  simp only [postFilter, hf, if_true, hbind]
  by_cases hin : (roiRect cw ch p.roi).x ≤ (centroid cs).x ∧
      (centroid cs).x ≤ (roiRect cw ch p.roi).x + (roiRect cw ch p.roi).w ∧
      (roiRect cw ch p.roi).y ≤ (centroid cs).y ∧
      (centroid cs).y ≤ (roiRect cw ch p.roi).y + (roiRect cw ch p.roi).h
  · rw [if_pos hin]
    exact ⟨iff_of_true rfl hin, fun h => absurd hin h⟩
  · rw [if_neg hin]
    exact ⟨iff_of_false (fun h => hrs h.symm) hin, fun _ => rfl⟩

/-- Props for the C8 witness: ROI filtering enabled on a 640 by 480 frame. -/
def c8P : Props :=
  { frameInterval := 1, roi := fxRoi, useRoi := true, filterInsideRoi := true,
    bdTimeoutMs := 0, bdMaxZeroFrames := 0, detectEnabled := true, scanOnce := false }

/-- A detection whose centroid (300, 200) lies inside the ROI of a 640 by
480 frame. -/
def c8Dc : DetectedCode :=
  { rawValue := "inside", format := some "qr_code",
    corners := some [{ x := 290, y := 190 }, { x := 310, y := 190 },
                     { x := 310, y := 210 }, { x := 290, y := 210 }] }

/-- Concrete instance of c8_roi_filter at a detection whose centroid lies
inside the ROI of a 640 by 480 frame. -/
theorem c8_witness :
    (postFilter c8P 640 480 [c8Dc] = [c8Dc] ↔
      ((roiRect 640 480 c8P.roi).x ≤ (centroid [({ x := 290, y := 190 } : Pt), { x := 310, y := 190 }, { x := 310, y := 210 }, { x := 290, y := 210 }]).x ∧
       (centroid [({ x := 290, y := 190 } : Pt), { x := 310, y := 190 }, { x := 310, y := 210 }, { x := 290, y := 210 }]).x ≤ (roiRect 640 480 c8P.roi).x + (roiRect 640 480 c8P.roi).w ∧
       (roiRect 640 480 c8P.roi).y ≤ (centroid [({ x := 290, y := 190 } : Pt), { x := 310, y := 190 }, { x := 310, y := 210 }, { x := 290, y := 210 }]).y ∧
       (centroid [({ x := 290, y := 190 } : Pt), { x := 310, y := 190 }, { x := 310, y := 210 }, { x := 290, y := 210 }]).y ≤ (roiRect 640 480 c8P.roi).y + (roiRect 640 480 c8P.roi).h)) ∧
    (¬ ((roiRect 640 480 c8P.roi).x ≤ (centroid [({ x := 290, y := 190 } : Pt), { x := 310, y := 190 }, { x := 310, y := 210 }, { x := 290, y := 210 }]).x ∧
        (centroid [({ x := 290, y := 190 } : Pt), { x := 310, y := 190 }, { x := 310, y := 210 }, { x := 290, y := 210 }]).x ≤ (roiRect 640 480 c8P.roi).x + (roiRect 640 480 c8P.roi).w ∧
        (roiRect 640 480 c8P.roi).y ≤ (centroid [({ x := 290, y := 190 } : Pt), { x := 310, y := 190 }, { x := 310, y := 210 }, { x := 290, y := 210 }]).y ∧
        (centroid [({ x := 290, y := 190 } : Pt), { x := 310, y := 190 }, { x := 310, y := 210 }, { x := 290, y := 210 }]).y ≤ (roiRect 640 480 c8P.roi).y + (roiRect 640 480 c8P.roi).h) →
      postFilter c8P 640 480 [c8Dc] = []) :=
  c8_roi_filter c8P 640 480 [c8Dc] c8Dc
    [{ x := 290, y := 190 }, { x := 310, y := 190 }, { x := 310, y := 210 }, { x := 290, y := 210 }]
    rfl rfl rfl

/-! ## C9: smoothing memory survives detection-free frames -/

lemma loop_smooth_inactive (p : Props) (inp : FrameInput) (s2 : ScannerSt)
    (hin : frameActive (loop p inp s2).results = false) :
    (loop p inp s2).state.smoothCorners = s2.smoothCorners := by
  cases hr : (readFrame p inp s2).result with
  | error e =>
    rw [loop_eq_error p inp s2 e hr]
    exact readFrame_smoothCorners p inp s2
  | ok rs0 =>
    rw [loop_results_ok p inp s2 rs0 hr] at hin
    by_cases hc : postFilter p inp.videoW inp.videoH rs0 ≠ [] ∧ p.scanOnce = true
    · rw [loop_eq_stop p inp s2 rs0 hr hc.1 hc.2]
      show (drawOverlayStep (postFilter p inp.videoW inp.videoH rs0)
        (readFrame p inp s2).state.smoothCorners).1 = s2.smoothCorners
      rw [drawOverlayStep_inactive _ _ hin]
      exact readFrame_smoothCorners p inp s2
    · rw [loop_eq_go p inp s2 rs0 hr hc]
      show (drawOverlayStep (postFilter p inp.videoW inp.videoH rs0)
        (readFrame p inp s2).state.smoothCorners).1 = s2.smoothCorners
      rw [drawOverlayStep_inactive _ _ hin]
      exact readFrame_smoothCorners p inp s2

lemma loop_smooth_trace (p : Props) :
    ∀ (inps : List FrameInput) (s2 : ScannerSt),
      (∀ o ∈ runLoop p inps s2, frameActive o.results = false) →
      ∀ o ∈ runLoop p inps s2, o.state.smoothCorners = s2.smoothCorners := by
  intro inps
  induction inps with
  | nil => intro s2 hall o ho; simp [runLoop] at ho
  | cons inp rest ih =>
    intro s2 hall o ho
    rw [show runLoop p (inp :: rest) s2 =
      loop p inp s2 ::
        (if (loop p inp s2).reschedule then runLoop p rest (loop p inp s2).state else [])
      from rfl] at ho hall
    have h0 := hall _ (List.mem_cons_self _ _)
    have hs0 := loop_smooth_inactive p inp s2 h0
    rcases List.mem_cons.mp ho with rfl | hmem
    · exact hs0
    · by_cases hres : (loop p inp s2).reschedule
      · rw [if_pos hres] at hmem
        have hall2 : ∀ o2 ∈ runLoop p rest (loop p inp s2).state,
            frameActive o2.results = false := by
          intro o2 ho2
          refine hall o2 (List.mem_cons_of_mem _ ?_)
          rw [if_pos hres]
          exact ho2
        have := ih (loop p inp s2).state hall2 o hmem
        rw [this, hs0]
      · rw [if_neg hres] at hmem
        simp at hmem

lemma loop_drawn_active (p : Props) (inp : FrameInput) (s2 : ScannerSt)
    (q cs : List Pt) (hq : s2.smoothCorners = some q)
    (hb : (loop p inp s2).results.head?.bind DetectedCode.corners = some cs)
    (hne : cs ≠ []) :
    (loop p inp s2).drawn = some (emaCorners (some q) cs) := by
  cases hr : (readFrame p inp s2).result with
  | error e =>
    rw [loop_eq_error p inp s2 e hr] at hb
    simp at hb
  | ok rs0 =>
    rw [loop_results_ok p inp s2 rs0 hr] at hb
    have hsc : (readFrame p inp s2).state.smoothCorners = some q := by
      rw [readFrame_smoothCorners p inp s2, hq]
    by_cases hc : postFilter p inp.videoW inp.videoH rs0 ≠ [] ∧ p.scanOnce = true
    · rw [loop_eq_stop p inp s2 rs0 hr hc.1 hc.2]
      show (drawOverlayStep (postFilter p inp.videoW inp.videoH rs0)
        (readFrame p inp s2).state.smoothCorners).2 = some (emaCorners (some q) cs)
      rw [hsc, drawOverlayStep_active _ _ cs hb hne]
    · rw [loop_eq_go p inp s2 rs0 hr hc]
      show (drawOverlayStep (postFilter p inp.videoW inp.videoH rs0)
        (readFrame p inp s2).state.smoothCorners).2 = some (emaCorners (some q) cs)
      rw [hsc, drawOverlayStep_active _ _ cs hb hne]

/-- C9: the smoothing memory is updated only by frames whose top result has a
non-empty corner list, and is never cleared on detection-free frames: a
single inactive frame leaves it untouched, and along any scheduled trace all
of whose frames are inactive every state still carries the original memory;
when a detection with corners then reappears with a vertex count matching the
stored polygon, the stroked outline is the exponential-moving-average blend
of the stale stored polygon with the new corners, and it differs from the new
corners whenever the stored polygon does. -/
theorem c9_smooth_memory (p : Props) :
    (∀ (inp : FrameInput) (s2 : ScannerSt),
      frameActive (loop p inp s2).results = false →
      (loop p inp s2).state.smoothCorners = s2.smoothCorners) ∧
    (∀ (inps : List FrameInput) (s2 : ScannerSt),
      (∀ o ∈ runLoop p inps s2, frameActive o.results = false) →
      ∀ o ∈ runLoop p inps s2, o.state.smoothCorners = s2.smoothCorners) ∧
    (∀ (inp : FrameInput) (s2 : ScannerSt) (q cs : List Pt),
      s2.smoothCorners = some q →
      (loop p inp s2).results.head?.bind DetectedCode.corners = some cs →
      cs ≠ [] → q.length = cs.length →
      (loop p inp s2).drawn = some (emaCorners (some q) cs) ∧
      (q ≠ cs → (loop p inp s2).drawn ≠ some cs)) := by
  refine ⟨loop_smooth_inactive p, loop_smooth_trace p, ?_⟩
  intro inp s2 q cs hq hb hne hlen
  refine ⟨loop_drawn_active p inp s2 q cs hq hb hne, ?_⟩
  intro hqcs heq
  rw [loop_drawn_active p inp s2 q cs hq hb hne] at heq
  have heq2 : emaCornersA SMOOTH_ALPHA (some q) cs = cs := Option.some.inj heq
  exact hqcs ((emaCornersA_eq_self SMOOTH_ALPHA (by norm_num [SMOOTH_ALPHA]) cs q hlen).mp heq2)

/-- Props for the C9 witness: WASM engine, no filtering, scanOnce off. -/
def c9P : Props :=
  { frameInterval := 1, roi := fxRoi, useRoi := false, filterInsideRoi := false,
    bdTimeoutMs := 0, bdMaxZeroFrames := 0, detectEnabled := true, scanOnce := false }

/-- The stale stored polygon of the C9 witness. -/
def c9Q : List Pt :=
  [{ x := 0, y := 0 }, { x := 4, y := 0 }, { x := 4, y := 4 }, { x := 0, y := 4 }]

/-- The reappearing corner polygon of the C9 witness (the corners of fxDc). -/
def c9Cs : List Pt :=
  [{ x := 1, y := 1 }, { x := 3, y := 1 }, { x := 3, y := 3 }, { x := 1, y := 3 }]

/-- State for the C9 witness: smoothing memory holds the stale polygon. -/
def c9S : ScannerSt :=
  { usingBarcodeAPI := false, zeroFrameStreak := 0, bdStartTs := 0, frameCount := 0,
    smoothCorners := some c9Q, running := true }

/-- Frame for the C9 witness: the WASM engine reports fxDc. -/
def c9Inp : FrameInput :=
  { now := 16, native := Except.ok [], wasmRaw := Except.ok [fxDc],
    videoW := 640, videoH := 480 }

/-- Concrete instance of c9_smooth_memory part three: the stroked outline is
the blend of the stale polygon with the new corners and is not the new
corners verbatim. -/
theorem c9_witness :
    (loop c9P c9Inp c9S).drawn = some (emaCorners (some c9Q) c9Cs) ∧
    (loop c9P c9Inp c9S).drawn ≠ some c9Cs := by
  have h := (c9_smooth_memory c9P).2.2 c9Inp c9S c9Q c9Cs rfl
    (by with_unfolding_all rfl) (by with_unfolding_all decide) (by with_unfolding_all decide)
  exact ⟨h.1, h.2 (by with_unfolding_all decide)⟩

/-! ## C10: scanOnce stops scanning even when emission is disabled -/

/-- C10: with scanOnce enabled and detectEnabled disabled, a processed frame
whose post-filter result list is non-empty still stops scanning: the session
pauses, exactly one overlay render is performed for the frame, no further
tick is requested, and no detect event is emitted on that frame; moreover no
output along any scheduled trace ever contains a detect event. -/
theorem c10_scan_once_silent (p : Props) (hsc : p.scanOnce = true)
    (hd : p.detectEnabled = false) :
    (∀ (inp : FrameInput) (s : ScannerSt), (loop p inp s).results ≠ [] →
      (loop p inp s).reschedule = false ∧ (loop p inp s).state.running = false ∧
      (loop p inp s).draws.length = 1 ∧
      (∀ rs : List DetectedCode, Event.detect rs ∉ (loop p inp s).events)) ∧
    (∀ (inps : List FrameInput) (s : ScannerSt), ∀ o ∈ runLoop p inps s,
      ∀ rs : List DetectedCode, Event.detect rs ∉ o.events) := by
  constructor
  · intro inp s hne
    obtain ⟨h1, h2, h3⟩ := loop_stop_char p inp s hsc hne
    exact ⟨h1, h2, by rw [h3]; rfl, loop_no_detect p inp s hd⟩
  · intro inps s o ho rs
    obtain ⟨inp, s2, rfl⟩ := runLoop_mem_loop p inps s o ho
    exact loop_no_detect p inp s2 hd rs

/-- Props for the C10 witness: scanOnce on, detect emission off. -/
def c10P : Props :=
  { frameInterval := 1, roi := fxRoi, useRoi := false, filterInsideRoi := false,
    bdTimeoutMs := 0, bdMaxZeroFrames := 0, detectEnabled := false, scanOnce := true }

/-- State for the C10 witness: WASM engine active, running. -/
def c10S : ScannerSt :=
  { usingBarcodeAPI := false, zeroFrameStreak := 0, bdStartTs := 0, frameCount := 0,
    smoothCorners := none, running := true }

/-- Frame for the C10 witness: the WASM engine reports one detection. -/
def c10Inp : FrameInput :=
  { now := 16, native := Except.ok [], wasmRaw := Except.ok [fxDc],
    videoW := 640, videoH := 480 }

/-- Concrete instance of c10_scan_once_silent: the detecting frame pauses,
renders once, does not reschedule, and emits no detect event. -/
theorem c10_witness :
    ((loop c10P c10Inp c10S).reschedule = false ∧
     (loop c10P c10Inp c10S).state.running = false ∧
     (loop c10P c10Inp c10S).draws.length = 1 ∧
     (∀ rs : List DetectedCode, Event.detect rs ∉ (loop c10P c10Inp c10S).events)) ∧
    (∀ rs : List DetectedCode, Event.detect rs ∉ (loop c10P c10Inp c10S).events) := by
  have h := c10_scan_once_silent c10P rfl rfl
  refine ⟨h.1 c10Inp c10S (by with_unfolding_all decide), ?_⟩
  exact h.2 [c10Inp] c10S (loop c10P c10Inp c10S) (List.mem_cons_self _ _)

/-! ## C4: scanOnce stops the scheduler after the first detection -/

/-- C4: with scanOnce enabled, along any scheduled trace in which the first k
ticks produce empty post-filter result lists and tick k produces a non-empty
one, the trace ends exactly at tick k: it has k+1 outputs, the final output
pauses the session, draws the overlay exactly once more and requests no
further tick, and every earlier output rescheduled normally with an empty
result list. -/
theorem c4_scan_once (p : Props) (hsc : p.scanOnce = true) :
    ∀ (k : ℕ) (inps : List FrameInput) (s : ScannerSt),
      k < inps.length →
      (∀ i, i < k → (resultsSeq p inps s).get? i = some []) →
      (∀ rs, (resultsSeq p inps s).get? k = some rs → rs ≠ []) →
      (runLoop p inps s).length = k + 1 ∧
      (∀ o, (runLoop p inps s).get? k = some o →
        o.reschedule = false ∧ o.state.running = false ∧ o.draws.length = 1) ∧
      (∀ i, i < k → ∀ o, (runLoop p inps s).get? i = some o →
        o.reschedule = true ∧ o.results = []) := by
  intro k
  induction k with
  | zero =>
    intro inps s hk hbefore hkne
    cases inps with
    | nil => simp at hk
    | cons inp rest =>
      have h0 : (resultsSeq p (inp :: rest) s).get? 0 = some (loop p inp s).results := rfl
      have hne := hkne _ h0
      obtain ⟨hstop1, hstop2, hstop3⟩ := loop_stop_char p inp s hsc hne
      have hrun : runLoop p (inp :: rest) s = [loop p inp s] := by
        rw [show runLoop p (inp :: rest) s =
          loop p inp s ::
            (if (loop p inp s).reschedule then runLoop p rest (loop p inp s).state else [])
          from rfl]
        rw [hstop1]
        simp
      refine ⟨by rw [hrun]; rfl, ?_, ?_⟩
      · intro o ho
        rw [hrun, List.get?_cons_zero] at ho
        obtain rfl := Option.some.inj ho
        exact ⟨hstop1, hstop2, by rw [hstop3]; rfl⟩
      · intro i hi
        exact absurd hi (Nat.not_lt_zero i)
  | succ m ih =>
    intro inps s hk hbefore hkne
    cases inps with
    | nil => simp at hk
    | cons inp rest =>
      have h0 : (resultsSeq p (inp :: rest) s).get? 0 = some (loop p inp s).results := rfl
      have hres0 : (loop p inp s).results = [] := by
        have hb := hbefore 0 (Nat.succ_pos m)
        rw [h0] at hb
        exact Option.some.inj hb
      have hgo := loop_go_char p inp s hres0
      have hrun : runLoop p (inp :: rest) s =
          loop p inp s :: runLoop p rest (loop p inp s).state := by
        rw [show runLoop p (inp :: rest) s =
          loop p inp s ::
            (if (loop p inp s).reschedule then runLoop p rest (loop p inp s).state else [])
          from rfl]
        rw [if_pos hgo]
      have hseq : resultsSeq p (inp :: rest) s =
          (loop p inp s).results :: resultsSeq p rest (loop p inp s).state := rfl
      have hbefore2 : ∀ i, i < m →
          (resultsSeq p rest (loop p inp s).state).get? i = some [] := by
        intro i hi
        have hb := hbefore (i + 1) (Nat.succ_lt_succ hi)
        rw [hseq, List.get?_cons_succ] at hb
        exact hb
      have hkne2 : ∀ rs, (resultsSeq p rest (loop p inp s).state).get? m = some rs →
          rs ≠ [] := by
        intro rs h
        apply hkne
        rw [hseq, List.get?_cons_succ]
        exact h
      have hk2 : m < rest.length := by
        have hk3 : m + 1 < rest.length + 1 := by simpa using hk
        exact Nat.lt_of_succ_lt_succ hk3
      obtain ⟨ihlen, ihk, ihlt⟩ := ih rest (loop p inp s).state hk2 hbefore2 hkne2
      refine ⟨?_, ?_, ?_⟩
      · rw [hrun, List.length_cons, ihlen]
      · intro o ho
        rw [hrun, List.get?_cons_succ] at ho
        exact ihk o ho
      · intro i hi o ho
        rw [hrun] at ho
        cases i with
        | zero =>
          rw [List.get?_cons_zero] at ho
          obtain rfl := Option.some.inj ho
          exact ⟨hgo, hres0⟩
        | succ j =>
          rw [List.get?_cons_succ] at ho
          exact ihlt j (Nat.lt_of_succ_lt_succ hi) o ho

/-- Props for the C4 witness: scanOnce on, WASM engine, processed every
tick. -/
def c4P : Props :=
  { frameInterval := 1, roi := fxRoi, useRoi := false, filterInsideRoi := false,
    bdTimeoutMs := 0, bdMaxZeroFrames := 0, detectEnabled := true, scanOnce := true }

/-- State for the C4 witness. -/
def c4S : ScannerSt :=
  { usingBarcodeAPI := false, zeroFrameStreak := 0, bdStartTs := 0, frameCount := 0,
    smoothCorners := none, running := true }

/-- A frame with no detection, used in the C4 witness. -/
def c4InpEmpty : FrameInput :=
  { now := 16, native := Except.ok [], wasmRaw := Except.ok [],
    videoW := 640, videoH := 480 }

/-- A frame whose WASM detection reports fxDc, used in the C4 witness. -/
def c4InpHit : FrameInput :=
  { now := 32, native := Except.ok [], wasmRaw := Except.ok [fxDc],
    videoW := 640, videoH := 480 }

/-- The C4 witness frame sequence: empty, hit, then one more tick that must
never run. -/
def c4Inps : List FrameInput := [c4InpEmpty, c4InpHit, c4InpEmpty]

/-- Concrete instance of c4_scan_once: the trace stops after the second tick
(the first detection), with one final render and no reschedule. -/
theorem c4_witness :
    (runLoop c4P c4Inps c4S).length = 2 ∧
    (∀ o, (runLoop c4P c4Inps c4S).get? 1 = some o →
      o.reschedule = false ∧ o.state.running = false ∧ o.draws.length = 1) ∧
    (∀ i, i < 1 → ∀ o, (runLoop c4P c4Inps c4S).get? i = some o →
      o.reschedule = true ∧ o.results = []) := by
  refine c4_scan_once c4P rfl 1 c4Inps c4S (by decide) ?_ ?_
  · intro i hi
    have hi0 : i = 0 := by omega
    subst hi0
    with_unfolding_all rfl
  · intro rs h
    have h2 : (resultsSeq c4P c4Inps c4S).get? 1 = some [fxDc] := by
      with_unfolding_all rfl
    rw [h2] at h
    obtain rfl := Option.some.inj h
    simp [fxDc]

/-! ## C5: frame-skip factor -/

lemma wasmPath_invoked (p : Props) (inp : FrameInput) (s : ScannerSt) (evs : List Event) :
    (wasmPath p inp s evs).invoked = true := by
  cases hw : inp.wasmRaw with
  | error e => rw [wasmPath_error p inp s evs e hw]
  | ok ws => rw [wasmPath_ok p inp s evs ws hw]

lemma readFrame_cases (p : Props) (inp : FrameInput) (s : ScannerSt)
    (hfc : (s.frameCount + 1) % p.frameInterval = 0) :
    (readFrame p inp s).state.frameCount = 0 ∧ (readFrame p inp s).invoked = true := by
  by_cases hbd : s.usingBarcodeAPI = true
  · cases hN : inp.native with
    | error e =>
      rw [readFrame_native_error p inp s e hfc hbd hN, wasmPath_state]
      exact ⟨rfl, wasmPath_invoked p inp _ _⟩
    | ok rs =>
      by_cases hrs : rs = []
      · subst hrs
        by_cases hfire : (0 < p.bdTimeoutMs ∧ p.bdTimeoutMs ≤ inp.now - s.bdStartTs) ∨
            (0 < p.bdMaxZeroFrames ∧ p.bdMaxZeroFrames ≤ s.zeroFrameStreak + 1)
        · rw [readFrame_native_empty_fire p inp s hfc hbd hN hfire, wasmPath_state]
          exact ⟨rfl, wasmPath_invoked p inp _ _⟩
        · obtain ⟨hq1, hq2⟩ := not_or.mp hfire
          rw [readFrame_native_empty_quiet p inp s hfc hbd hN hq1 hq2]
          exact ⟨rfl, rfl⟩
      · rw [readFrame_native_some p inp s rs hfc hbd hN hrs]
        exact ⟨rfl, rfl⟩
  · have hbd2 : s.usingBarcodeAPI = false := by
      revert hbd; cases s.usingBarcodeAPI <;> simp
    rw [readFrame_no_bd p inp s hfc hbd2, wasmPath_state]
    exact ⟨rfl, wasmPath_invoked p inp _ _⟩

lemma readFrame_frameCount (p : Props) (inp : FrameInput) (s : ScannerSt) :
    (readFrame p inp s).state.frameCount = (s.frameCount + 1) % p.frameInterval := by
  by_cases hfc : (s.frameCount + 1) % p.frameInterval = 0
  · rw [(readFrame_cases p inp s hfc).1, hfc]
  · rw [readFrame_skip p inp s hfc]

lemma readFrame_invoked (p : Props) (inp : FrameInput) (s : ScannerSt) :
    (readFrame p inp s).invoked = true ↔ (s.frameCount + 1) % p.frameInterval = 0 := by
  by_cases hfc : (s.frameCount + 1) % p.frameInterval = 0
  · exact iff_of_true (readFrame_cases p inp s hfc).2 hfc
  · rw [readFrame_skip p inp s hfc]
    exact iff_of_false (by simp) hfc

lemma loop_frameCount (p : Props) (inp : FrameInput) (s : ScannerSt) :
    (loop p inp s).state.frameCount = (s.frameCount + 1) % p.frameInterval := by
  cases hr : (readFrame p inp s).result with
  | error e =>
    rw [loop_eq_error p inp s e hr]
    exact readFrame_frameCount p inp s
  | ok rs0 =>
    by_cases hc : postFilter p inp.videoW inp.videoH rs0 ≠ [] ∧ p.scanOnce = true
    · rw [loop_eq_stop p inp s rs0 hr hc.1 hc.2]
      exact readFrame_frameCount p inp s
    · rw [loop_eq_go p inp s rs0 hr hc]
      exact readFrame_frameCount p inp s

lemma loop_invoked (p : Props) (inp : FrameInput) (s : ScannerSt) :
    (loop p inp s).invoked = true ↔ (s.frameCount + 1) % p.frameInterval = 0 := by
  cases hr : (readFrame p inp s).result with
  | error e =>
    rw [loop_eq_error p inp s e hr]
    exact readFrame_invoked p inp s
  | ok rs0 =>
    by_cases hc : postFilter p inp.videoW inp.videoH rs0 ≠ [] ∧ p.scanOnce = true
    · rw [loop_eq_stop p inp s rs0 hr hc.1 hc.2]
      exact readFrame_invoked p inp s
    · rw [loop_eq_go p inp s rs0 hr hc]
      exact readFrame_invoked p inp s

lemma loop_skipped (p : Props) (inp : FrameInput) (s : ScannerSt)
    (hfc : (s.frameCount + 1) % p.frameInterval ≠ 0) :
    (loop p inp s).events = [] ∧ (loop p inp s).results = [] ∧
    (loop p inp s).draws = [[]] ∧ (loop p inp s).reschedule = true := by
  have hrf := readFrame_skip p inp s hfc
  have hres : (readFrame p inp s).result = Except.ok [] := by rw [hrf]
  have hpf : postFilter p inp.videoW inp.videoH ([] : List DetectedCode) = [] :=
    postFilter_nil p inp.videoW inp.videoH
  rw [loop_eq_go p inp s [] hres (by simp [hpf])]
  refine ⟨?_, hpf, by rw [hpf], rfl⟩
  rw [hrf]
  simp [hpf]

lemma c5_aux (p : Props) (h3 : p.frameInterval = 3) :
    ∀ (inps : List FrameInput) (s : ScannerSt) (n : ℕ) (o : LoopOut),
      (runLoop p inps s).get? n = some o →
      o.state.frameCount = (s.frameCount + n + 1) % 3 ∧
      (o.invoked = true ↔ (s.frameCount + n + 1) % 3 = 0) ∧
      ((s.frameCount + n + 1) % 3 ≠ 0 →
        o.events = [] ∧ o.results = [] ∧ o.draws = [[]] ∧ o.reschedule = true) := by
  intro inps
  induction inps with
  | nil => intro s n o ho; simp [runLoop] at ho
  | cons inp rest ih =>
    intro s n o ho
    rw [show runLoop p (inp :: rest) s =
      loop p inp s ::
        (if (loop p inp s).reschedule then runLoop p rest (loop p inp s).state else [])
      from rfl] at ho
    cases n with
    | zero =>
      rw [List.get?_cons_zero] at ho
      obtain rfl := Option.some.inj ho
      refine ⟨?_, ?_, ?_⟩
      · have h := loop_frameCount p inp s
        rw [h3] at h
        simpa using h
      · have h := loop_invoked p inp s
        rw [h3] at h
        simpa using h
      · intro hne
        have hfc : (s.frameCount + 1) % p.frameInterval ≠ 0 := by
          rw [h3]; simpa using hne
        exact loop_skipped p inp s hfc
    | succ m =>
      rw [List.get?_cons_succ] at ho
      by_cases hres : (loop p inp s).reschedule = true
      · rw [if_pos hres] at ho
        have hrec := ih (loop p inp s).state m o ho
        have hfc := loop_frameCount p inp s
        rw [h3] at hfc
        have hmod : ((loop p inp s).state.frameCount + m + 1) % 3 =
            (s.frameCount + (m + 1) + 1) % 3 := by
          rw [hfc]; omega
        rw [hmod] at hrec
        exact hrec
      · rw [if_neg hres] at ho
        simp at ho

/-- C5: with frameInterval = 3, in every window of three consecutive
scheduled ticks exactly one tick invokes a detection engine, and each of the
other two ticks still redraws the overlay (with the empty result list),
makes no detect call, emits no event at all, and reschedules. -/
theorem c5_frame_skip (p : Props) (h3 : p.frameInterval = 3)
    (inps : List FrameInput) (s : ScannerSt) (n : ℕ) (o0 o1 o2 : LoopOut)
    (h0 : (runLoop p inps s).get? n = some o0)
    (h1 : (runLoop p inps s).get? (n + 1) = some o1)
    (h2 : (runLoop p inps s).get? (n + 2) = some o2) :
    ((if o0.invoked = true then 1 else 0) + (if o1.invoked = true then 1 else 0) +
      (if o2.invoked = true then 1 else 0) = 1) ∧
    (∀ o ∈ [o0, o1, o2], o.invoked = false →
      o.events = [] ∧ o.results = [] ∧ o.draws = [[]] ∧ o.reschedule = true) := by
  obtain ⟨-, hi0, hs0⟩ := c5_aux p h3 inps s n o0 h0
  obtain ⟨-, hi1, hs1⟩ := c5_aux p h3 inps s (n + 1) o1 h1
  obtain ⟨-, hi2, hs2⟩ := c5_aux p h3 inps s (n + 2) o2 h2
  have e1 : s.frameCount + (n + 1) + 1 = s.frameCount + n + 2 := by omega
  have e2 : s.frameCount + (n + 2) + 1 = s.frameCount + n + 3 := by omega
  rw [e1] at hi1 hs1
  rw [e2] at hi2 hs2
  have hbool : ∀ (b : Bool) (P : Prop), (b = true ↔ P) → ¬ P → b = false := by
    intro b P hiff hnp
    cases hb : b with
    | false => rfl
    | true => exact absurd (hiff.mp hb) hnp
  constructor
  · have hm : (s.frameCount + n + 1) % 3 = 0 ∨ (s.frameCount + n + 1) % 3 = 1 ∨
        (s.frameCount + n + 1) % 3 = 2 := by omega
    rcases hm with hm | hm | hm
    · rw [hi0.mpr hm, hbool _ _ hi1 (by omega), hbool _ _ hi2 (by omega)]
      rfl
    · rw [hbool _ _ hi0 (by omega), hbool _ _ hi1 (by omega), hi2.mpr (by omega)]
      rfl
    · rw [hbool _ _ hi0 (by omega), hi1.mpr (by omega), hbool _ _ hi2 (by omega)]
      rfl
  · intro o ho hinv
    have hmem : o = o0 ∨ o = o1 ∨ o = o2 := by simpa using ho
    rcases hmem with rfl | rfl | rfl
    · refine hs0 fun hz => ?_
      rw [hi0.mpr hz] at hinv
      exact Bool.noConfusion hinv
    · refine hs1 fun hz => ?_
      rw [hi1.mpr hz] at hinv
      exact Bool.noConfusion hinv
    · refine hs2 fun hz => ?_
      rw [hi2.mpr hz] at hinv
      exact Bool.noConfusion hinv

/-- Props for the C5 witness: frameInterval 3 on the WASM engine. -/
def c5P : Props :=
  { frameInterval := 3, roi := fxRoi, useRoi := false, filterInsideRoi := false,
    bdTimeoutMs := 0, bdMaxZeroFrames := 0, detectEnabled := true, scanOnce := false }

/-- State for the C5 witness. -/
def c5S : ScannerSt :=
  { usingBarcodeAPI := false, zeroFrameStreak := 0, bdStartTs := 0, frameCount := 0,
    smoothCorners := none, running := true }

/-- One detection-free frame for the C5 witness. -/
def c5Inp : FrameInput :=
  { now := 16, native := Except.ok [], wasmRaw := Except.ok [],
    videoW := 640, videoH := 480 }

/-- First tick output of the C5 witness trace. -/
def c5o0 : LoopOut := loop c5P c5Inp c5S

/-- Second tick output of the C5 witness trace. -/
def c5o1 : LoopOut := loop c5P c5Inp c5o0.state

/-- Third tick output of the C5 witness trace. -/
def c5o2 : LoopOut := loop c5P c5Inp c5o1.state

/-- Concrete instance of c5_frame_skip on the first three ticks of a trace:
exactly one tick invokes detection, the others draw and reschedule without
events. -/
theorem c5_witness :
    ((if c5o0.invoked = true then 1 else 0) + (if c5o1.invoked = true then 1 else 0) +
      (if c5o2.invoked = true then 1 else 0) = 1) ∧
    (∀ o ∈ [c5o0, c5o1, c5o2], o.invoked = false →
      o.events = [] ∧ o.results = [] ∧ o.draws = [[]] ∧ o.reschedule = true) :=
  c5_frame_skip c5P rfl [c5Inp, c5Inp, c5Inp] c5S 0 c5o0 c5o1 c5o2
    (by with_unfolding_all rfl) (by with_unfolding_all rfl) (by with_unfolding_all rfl)

end QrScanner
